import Mathlib

/-
Verification development for the PyTracer raw data collector
(src/coverage/pytracer.py): a shallow embedding of the tracer's state and
of the `_trace` event dispatcher, `start`, `stop` and `get_stats`, together
with theorems about the recorded coverage data.

Modelling conventions, written next to the code they model:

* Python dicts used as sets (`self.data[name]`, the per-file dicts) are
  insertion-ordered association lists / key lists; a dict assignment
  `d[k] = None` is an insert-if-absent at the end.
* A run of the dispatcher that would raise an exception in Python
  (popping an empty `data_stack`, indexing the initial `[]` placeholder
  of `cur_file_dict` with a line number or an arc pair) is modelled by
  the step function returning `none`.
* Frame objects are compared by identity in Python; a frame here carries
  a numeric identity `fid`, and `f_back` is the identity of the parent
  frame (`none` when the parent is absent).
* `self.coroutine_id_func()` is modelled by the stream identifier carried
  on each event: the resolver, when configured, reports the stream that is
  current while the event is being handled.
-/

namespace PyTracerModel

/-- Key of a per-unit recorded dictionary: a line number in line mode, an
ordered pair of line numbers (an arc) in arc mode. -/
inductive Key where
  | line (n : Int)
  | arc (a b : Int)
deriving DecidableEq, Repr

/-- A per-unit dict used as a set of keys (`self.data[tracename]`). -/
abbrev FileDict := List Key

/-- Dict assignment `d[k] = None`: insert the key at the end if absent. -/
def FileDict.insertKey (d : FileDict) (k : Key) : FileDict :=
  if k ∈ d then d else d ++ [k]

/-- Lookup in an association list (Python `dict.get`). -/
def lookupA {α β : Type} [DecidableEq α] (x : α) : List (α × β) → Option β
  | [] => none
  | (y, v) :: t => if y = x then some v else lookupA x t

/-- Dict assignment `m[x] = v`: replace in place, or append if absent. -/
def updateA {α β : Type} [DecidableEq α] (x : α) (v : β) : List (α × β) → List (α × β)
  | [] => [(x, v)]
  | (y, w) :: t => if y = x then (y, v) :: t else (y, w) :: updateA x v t

/-- Apply a function to the value stored under a present key. -/
def modifyA {α β : Type} [DecidableEq α] (x : α) (f : β → β) : List (α × β) → List (α × β)
  | [] => []
  | (y, w) :: t => if y = x then (y, f w) :: t else (y, w) :: modifyA x f t

/-- The value of `self.cur_file_dict`: the initial `[]` placeholder from
`__init__`, Python `None`, or a reference into `self.data` under a unit
name.  The three are distinguished because the dispatcher tests both
`is not None` (true for the placeholder) and truthiness (false for the
placeholder and for an empty dict). -/
inductive CurFile where
  | listInit
  | noneC
  | dict (name : String)
deriving DecidableEq, Repr

/-- The disposition returned by the `should_trace` oracle.  The plugin is
identified by its name (`plugin.__name__`); its behaviour lives in the
configuration. -/
structure Disp where
  trace : Bool
  source_filename : String
  plugin : Option String
deriving DecidableEq, Repr

/-- A frame delivered with an event: identity, parent identity
(`f_back`), `f_code.co_filename`, `f_code.co_firstlineno`, `f_lineno`. -/
structure Frame where
  fid : Nat
  back : Option Nat
  filename : String
  firstlineno : Int
  lineno : Int
deriving DecidableEq, Repr

/-- The four trace event kinds the dispatcher handles. -/
inductive EvKind where
  | call
  | line
  | ret
  | exc
deriving DecidableEq, Repr

/-- An event: kind, frame, and the stream identity the configured
resolver would report while the event is handled. -/
structure Ev where
  kind : EvKind
  frame : Frame
  stream : Nat
deriving DecidableEq, Repr

/-- One saved dispatch context `(self.plugin, self.cur_file_dict,
self.last_line)` as pushed on `self.data_stack`.  `self.plugin` is the
plugin name or `none`; the initial `[]` placeholder of `self.plugin` is
represented by `none` as well, since the code only ever tests the
attribute for truthiness (false for both) and pushes/pops it. -/
abbrev Ctx := Option String × CurFile × Int

/-- The mutable state of a PyTracer instance.  `last_line` is an `Int`;
the initial `[0]` placeholder from `__init__` is represented by `0`: it is
only ever pushed, popped and overwritten before use, and it can reach an
arc pair only through states whose `cur_file_dict` is falsy, where the
code never builds the pair. -/
structure TracerState where
  data : List (String × FileDict)
  plugin_data : List (String × String)
  should_trace_cache : List (String × Disp)
  plugin : Option String
  cur_file_dict : CurFile
  last_line : Int
  data_stack : List Ctx
  data_stacks : List (Nat × List Ctx)
  last_exc_back : Option Nat
  last_exc_firstlineno : Int
  last_coroutine : Option Nat
  stopped : Bool
deriving DecidableEq, Repr

/-- The state of a tracer as `__init__` plus the collector leave it at
session start. -/
def initState : TracerState where
  data := []
  plugin_data := []
  should_trace_cache := []
  plugin := none
  cur_file_dict := CurFile.listInit
  last_line := 0
  data_stack := []
  data_stacks := []
  last_exc_back := none
  last_exc_firstlineno := 0
  last_coroutine := none
  stopped := false

/-- Behaviour of a plugin: the result of `dynamic_source_file_name()`
(`none` when it returns a falsy value, otherwise the dynamic renaming
function, itself returning `none` for a falsy name), and
`line_number_range`. -/
structure PluginConf where
  dyn_source : Option (String → Frame → Option String)
  line_range : Frame → Int × Int

/-- The capabilities the collector injects into the tracer: arc mode,
whether `coroutine_id_func` is configured, the `should_trace` oracle,
plugin behaviour by plugin name, and `check_include`. -/
structure Config where
  arcs : Bool
  coroutine : Bool
  should_trace : String → Frame → Disp
  plugins : String → PluginConf
  check_include : String → Bool

/-- Truthiness of `self.cur_file_dict`: false for the `[]` placeholder and
for `None`; for a dict reference, true iff the referenced dict is
nonempty. -/
def curTruthy (s : TracerState) : Bool :=
  match s.cur_file_dict with
  | CurFile.dict name => !((lookupA name s.data).getD []).isEmpty
  | _ => false

/-- `self.cur_file_dict[k] = None`: writes through the reference into
`self.data`.  Only used on states whose `cur_file_dict` is a dict
reference. -/
def recordKey (s : TracerState) (k : Key) : TracerState :=
  match s.cur_file_dict with
  | CurFile.dict name => { s with data := modifyA name (fun d => d.insertKey k) s.data }
  | _ => s

/-- The stack the dispatcher operates on for this event: with a resolver
configured, `self.data_stacks[self.coroutine_id_func()]` (a defaultdict,
so absent entries read as `[]`), otherwise `self.data_stack`. -/
def activeStack (cfg : Config) (s : TracerState) (sid : Nat) : List Ctx :=
  if cfg.coroutine then (lookupA sid s.data_stacks).getD [] else s.data_stack

/-- Store back the stack the dispatcher just mutated: `self.data_stack`
always receives it, and with a resolver configured the entry of
`self.data_stacks` it aliases receives it too. -/
def setStack (cfg : Config) (s : TracerState) (sid : Nat) (l : List Ctx) : TracerState :=
  if cfg.coroutine then
    { s with data_stack := l, data_stacks := updateA sid l s.data_stacks }
  else
    { s with data_stack := l }

/-- `range(a, b + 1)` over integers: the list a, a+1, ..., b. -/
def intRange (a b : Int) : List Int :=
  (List.range (b + 1 - a).toNat).map (fun i => a + i)

/-- The `(lineno_from, lineno_to)` span of a line event: the plugin's
`line_number_range(frame)` when a plugin is active, else
`(frame.f_lineno, frame.f_lineno)`. -/
def lineSpan (cfg : Config) (s : TracerState) (e : Ev) : Int × Int :=
  match s.plugin with
  | some p => (cfg.plugins p).line_range e.frame
  | none => (e.frame.lineno, e.frame.lineno)

/-- The exception-recovery check at the top of `_trace` (lines 62-73): if
a frame raised and the incoming event's frame is the remembered parent,
synthesize the terminating arc and pop the stack as a return would have;
the pending marker is cleared in every branch.  Returns `none` when the
pop would raise. -/
def doRecovery (cfg : Config) (s : TracerState) (e : Ev) : Option TracerState :=
  match s.last_exc_back with
  | none => some s
  | some b =>
    if e.frame.fid = b then
      let s1 := if cfg.arcs && curTruthy s then
          recordKey s (Key.arc s.last_line (-s.last_exc_firstlineno))
        else s
      match activeStack cfg s1 e.stream with
      | [] => none
      | (p, c, l) :: t =>
        some { setStack cfg s1 e.stream t with
               plugin := p, cur_file_dict := c, last_line := l, last_exc_back := none }
    else
      some { s with last_exc_back := none }

/-- What one call of the Python `_trace` produced: the new state, whether
the function returned `self._trace` (`true`) or `None` (`false`), and the
raw unit identifiers passed to the `should_trace` oracle during the
event. -/
structure StepOut where
  state : TracerState
  returned_self : Bool
  oracle_calls : List String
deriving DecidableEq, Repr

/-- The event dispatch of `_trace` after the recovery check (lines
75-141). -/
def dispatch (cfg : Config) (s : TracerState) (e : Ev) : Option StepOut :=
  match e.kind with
  | EvKind.call =>
    let stck := activeStack cfg s e.stream
    let s1 := setStack cfg s e.stream ((s.plugin, s.cur_file_dict, s.last_line) :: stck)
    let s2 := if cfg.coroutine then { s1 with last_coroutine := some e.stream } else s1
    let fn := e.frame.filename
    let res : Disp × TracerState × List String :=
      match lookupA fn s2.should_trace_cache with
      | some d => (d, s2, [])
      | none =>
        let d := cfg.should_trace fn e.frame
        (d, { s2 with should_trace_cache := updateA fn d s2.should_trace_cache }, [fn])
    let disp := res.1
    let s3 := res.2.1
    let tracename : Option String :=
      if disp.trace then
        match disp.plugin with
        | none => some disp.source_filename
        | some pname =>
          match (cfg.plugins pname).dyn_source with
          | none => some disp.source_filename
          | some f =>
            match f disp.source_filename e.frame with
            | none => none
            | some t => if cfg.check_include t then some t else none
      else none
    let s4 :=
      match tracename with
      | none => { s3 with plugin := none, cur_file_dict := CurFile.noneC, last_line := -1 }
      | some tn =>
        let pd :=
          match disp.plugin with
          | some pn => s3.plugin_data ++ [(tn, pn)]
          | none => s3.plugin_data
        let s3a :=
          match lookupA tn s3.data with
          | some _ => s3
          | none => { s3 with data := s3.data ++ [(tn, ([] : FileDict))], plugin_data := pd }
        { s3a with plugin := disp.plugin, cur_file_dict := CurFile.dict tn, last_line := -1 }
    some ⟨s4, true, res.2.2⟩
  | EvKind.line =>
    let sp := lineSpan cfg s e
    let lf := sp.1
    let lt := sp.2
    if lf = -1 then some ⟨s, true, []⟩
    else
      match s.cur_file_dict with
      | CurFile.noneC => some ⟨{ s with last_line := lt }, true, []⟩
      | CurFile.listInit =>
        if cfg.arcs then none
        else if (intRange lf lt).isEmpty then some ⟨{ s with last_line := lt }, true, []⟩
        else none
      | CurFile.dict _ =>
        let s1 := if cfg.arcs then recordKey s (Key.arc s.last_line lf)
          else (intRange lf lt).foldl (fun st n => recordKey st (Key.line n)) s
        some ⟨{ s1 with last_line := lt }, true, []⟩
  | EvKind.ret =>
    let s1 := if cfg.arcs && curTruthy s then
        recordKey s (Key.arc s.last_line (-e.frame.firstlineno))
      else s
    let s2 := if cfg.coroutine then { s1 with last_coroutine := some e.stream } else s1
    match activeStack cfg s2 e.stream with
    | [] => none
    | (p, c, l) :: t =>
      some ⟨{ setStack cfg s2 e.stream t with
              plugin := p, cur_file_dict := c, last_line := l }, true, []⟩
  | EvKind.exc =>
    let s1 := { s with last_exc_back := e.frame.back, last_exc_firstlineno := e.frame.firstlineno }
    some ⟨s1, true, []⟩

/-- One call of `_trace`: the stopped check (lines 59-60, returning
`None`), the recovery check, then the event dispatch. -/
def step (cfg : Config) (s : TracerState) (e : Ev) : Option StepOut :=
  if s.stopped then some ⟨s, false, []⟩
  else (doRecovery cfg s e).bind (fun s' => dispatch cfg s' e)

/-- Deliver a list of events in order; `none` as soon as one raises. -/
def run (cfg : Config) (s : TracerState) : List Ev → Option TracerState
  | [] => some s
  | e :: evs =>
    match step cfg s e with
    | some o => run cfg o.state evs
    | none => none

/-- The raw unit identifiers passed to the `should_trace` oracle over a
run, in order, truncated where the run raises. -/
def runCalls (cfg : Config) (s : TracerState) : List Ev → List String
  | [] => []
  | e :: evs =>
    match step cfg s e with
    | some o => o.oracle_calls ++ runCalls cfg o.state evs
    | none => []

/-- Filenames of call events processed while the tracer is not stopped,
truncated where the run raises (the events the oracle could be consulted
for). -/
def runFiles (cfg : Config) (s : TracerState) : List Ev → List String
  | [] => []
  | e :: evs =>
    (if s.stopped = false ∧ e.kind = EvKind.call then [e.frame.filename] else []) ++
      match step cfg s e with
      | some o => runFiles cfg o.state evs
      | none => []

/-- Model of the process-wide `sys.settrace` slot: the identity of the
installed hook, or `none`. -/
structure SysModel where
  trace_hook : Option Nat
deriving DecidableEq, Repr

/-- `PyTracer.start` (lines 143-152): remember the current thread when a
threading module is configured, install `self._trace`, and return it.
Result: the new `self.thread`, the new hook slot, and the returned hook
identity. -/
def startTracer (selfHook : Nat) (threadingOn : Bool) (curThread : Nat)
    (thread : Option Nat) : Option Nat × SysModel × Nat :=
  ((if threadingOn then some curThread else thread), ⟨some selfHook⟩, selfHook)

/-- Result of `PyTracer.stop`: the tracer state, the hook slot, and
whether the warn callback fired. -/
structure StopOut where
  state : TracerState
  sys : SysModel
  warned : Bool
deriving DecidableEq, Repr

/-- `PyTracer.stop` (lines 154-168): set the stopped flag; when called on
a thread other than the starting one, do nothing else; otherwise warn if
the installed hook is no longer `self._trace`, then uninstall. -/
def stopTracer (selfHook : Nat) (threadingOn : Bool) (thread : Option Nat)
    (curThread : Nat) (warnOn : Bool) (s : TracerState) (sys : SysModel) : StopOut :=
  let s1 := { s with stopped := true }
  if threadingOn ∧ thread ≠ some curThread then
    ⟨s1, sys, false⟩
  else
    ⟨s1, ⟨none⟩, warnOn && !(sys.trace_hook == some selfHook)⟩

/-- `PyTracer.get_stats` (lines 170-172): always `None`. -/
def get_stats (_ : TracerState) : Option (List (String × Nat)) :=
  none

/-
Well-paired event sequences.  A `CTree` is one step of execution inside a
scope: a single executed line, or a complete nested call (a call event, a
body, and the matching return event); a `CBody` is a sequence of such
steps.  Serializing a `CTree.node` yields exactly the well-paired
call/line/return event sequences of one traced unit.
-/

mutual
inductive CTree : Type where
  | cline (n : Int) : CTree
  | node (b : CBody) : CTree
inductive CBody : Type where
  | nil : CBody
  | cons (t : CTree) (rest : CBody) : CBody
end

mutual
def treeSize : CTree → Nat
  | CTree.cline _ => 1
  | CTree.node b => bodySize b + 1
def bodySize : CBody → Nat
  | CBody.nil => 0
  | CBody.cons t r => treeSize t + bodySize r
end

/- The executed line numbers of a tree, in execution order. -/
mutual
def treeLines : CTree → List Int
  | CTree.cline n => [n]
  | CTree.node b => bodyLines b
def bodyLines : CBody → List Int
  | CBody.nil => []
  | CBody.cons t r => treeLines t ++ bodyLines r
end

/-- Value of `last_line` after one body item, starting from `l`: a line
event sets it to the line, a completed nested call restores it. -/
def itemLL (l : Int) : CTree → Int
  | CTree.cline n => n
  | CTree.node _ => l

/-- Value of `last_line` after a whole body, starting from `l`. -/
def bodyLL (l : Int) : CBody → Int
  | CBody.nil => l
  | CBody.cons t r => bodyLL (itemLL l t) r

/-- Whether a body contains a nested call at its top level. -/
def bodyHasNode : CBody → Bool
  | CBody.nil => false
  | CBody.cons (CTree.cline _) r => bodyHasNode r
  | CBody.cons (CTree.node _) _ => true

/-- A call event into unit `F` whose scope starts at line `fl`. -/
def callEv (F : String) (fl : Int) (sid : Nat) : Ev :=
  ⟨EvKind.call, ⟨0, none, F, fl, 0⟩, sid⟩

/-- A line event at line `n` in unit `F`. -/
def lineEv (F : String) (fl n : Int) (sid : Nat) : Ev :=
  ⟨EvKind.line, ⟨0, none, F, fl, n⟩, sid⟩

/-- A return event leaving a scope of unit `F` that starts at line `fl`. -/
def retEv (F : String) (fl : Int) (sid : Nat) : Ev :=
  ⟨EvKind.ret, ⟨0, none, F, fl, 0⟩, sid⟩

mutual
def serTree (F : String) (fl : Int) (sid : Nat) : CTree → List Ev
  | CTree.cline n => [lineEv F fl n sid]
  | CTree.node b => callEv F fl sid :: (serBody F fl sid b ++ [retEv F fl sid])
def serBody (F : String) (fl : Int) (sid : Nat) : CBody → List Ev
  | CBody.nil => []
  | CBody.cons t r => serTree F fl sid t ++ serBody F fl sid r
end

/-- The disposition of a plainly traced unit: trace it, record it under
its raw name, no plugin. -/
def dispSimple (F : String) : Disp :=
  ⟨true, F, none⟩

/-- Record a list of line numbers into a dict, in order. -/
def insLines (d : FileDict) (ls : List Int) : FileDict :=
  ls.foldl (fun d n => d.insertKey (Key.line n)) d

/-
Association list lemmas.
-/

theorem lookupA_updateA_self {α β : Type} [DecidableEq α] (x : α) (v : β)
    (m : List (α × β)) : lookupA x (updateA x v m) = some v := by
  induction m with
  | nil => simp [lookupA, updateA]
  | cons h t ih =>
    obtain ⟨y, w⟩ := h
    by_cases hy : y = x <;> simp [lookupA, updateA, hy, ih]

theorem lookupA_updateA_ne {α β : Type} [DecidableEq α] {y x : α} (v : β)
    (m : List (α × β)) (h : y ≠ x) : lookupA y (updateA x v m) = lookupA y m := by
  have hxy : ¬ x = y := fun hh => h hh.symm
  induction m with
  | nil => simp [lookupA, updateA, hxy]
  | cons hd t ih =>
    obtain ⟨z, w⟩ := hd
    by_cases hz : z = x
    · subst hz
      simp [lookupA, updateA, hxy]
    · simp [lookupA, updateA, hz, ih]

theorem updateA_self {α β : Type} [DecidableEq α] {x : α} {v : β}
    {m : List (α × β)} (h : lookupA x m = some v) : updateA x v m = m := by
  induction m with
  | nil => simp [lookupA] at h
  | cons hd t ih =>
    obtain ⟨z, w⟩ := hd
    by_cases hz : z = x
    · subst hz
      simp [lookupA] at h
      simp [updateA, h]
    · simp [lookupA, hz] at h
      simp [updateA, hz, ih h]

theorem updateA_updateA {α β : Type} [DecidableEq α] (x : α) (v w : β)
    (m : List (α × β)) : updateA x v (updateA x w m) = updateA x v m := by
  induction m with
  | nil => simp [updateA]
  | cons hd t ih =>
    obtain ⟨z, u⟩ := hd
    by_cases hz : z = x <;> simp [updateA, hz, ih]

theorem lookupA_modifyA_self {α β : Type} [DecidableEq α] (x : α) (f : β → β)
    (m : List (α × β)) : lookupA x (modifyA x f m) = (lookupA x m).map f := by
  induction m with
  | nil => simp [lookupA, modifyA]
  | cons hd t ih =>
    obtain ⟨z, w⟩ := hd
    by_cases hz : z = x <;> simp [lookupA, modifyA, hz, ih]

theorem lookupA_modifyA_ne {α β : Type} [DecidableEq α] {y x : α} (f : β → β)
    (m : List (α × β)) (h : y ≠ x) : lookupA y (modifyA x f m) = lookupA y m := by
  have hxy : ¬ x = y := fun hh => h hh.symm
  induction m with
  | nil => simp [modifyA]
  | cons hd t ih =>
    obtain ⟨z, w⟩ := hd
    by_cases hz : z = x
    · subst hz
      simp [lookupA, modifyA, hxy]
    · simp [lookupA, modifyA, hz, ih]

theorem modifyA_modifyA {α β : Type} [DecidableEq α] (x : α) (f g : β → β)
    (m : List (α × β)) : modifyA x g (modifyA x f m) = modifyA x (fun d => g (f d)) m := by
  induction m with
  | nil => simp [modifyA]
  | cons hd t ih =>
    obtain ⟨z, w⟩ := hd
    by_cases hz : z = x <;> simp [modifyA, hz, ih]

theorem modifyA_id {α β : Type} [DecidableEq α] (x : α)
    (m : List (α × β)) : modifyA x (fun d => d) m = m := by
  induction m with
  | nil => simp [modifyA]
  | cons hd t ih =>
    obtain ⟨z, w⟩ := hd
    by_cases hz : z = x <;> simp [modifyA, hz, ih]

theorem lookupA_eq_none_iff {α β : Type} [DecidableEq α] (x : α)
    (m : List (α × β)) : lookupA x m = none ↔ x ∉ m.map Prod.fst := by
  induction m with
  | nil => simp [lookupA]
  | cons hd t ih =>
    obtain ⟨z, w⟩ := hd
    by_cases hz : z = x
    · subst hz
      simp [lookupA]
    · have hxz : ¬ x = z := fun hh => hz hh.symm
      simp [lookupA, hz, ih, hxz]

theorem keys_updateA_new {α β : Type} [DecidableEq α] {x : α} (v : β)
    {m : List (α × β)} (h : lookupA x m = none) :
    (updateA x v m).map Prod.fst = m.map Prod.fst ++ [x] := by
  induction m with
  | nil => simp [updateA]
  | cons hd t ih =>
    obtain ⟨z, w⟩ := hd
    by_cases hz : z = x
    · subst hz
      simp [lookupA] at h
    · simp [lookupA, hz] at h
      simp [updateA, hz, ih h]

/-
FileDict lemmas: set semantics of the insert-if-absent dict assignment.
-/

theorem mem_insertKey (d : FileDict) (k k' : Key) :
    k ∈ d.insertKey k' ↔ k ∈ d ∨ k = k' := by
  by_cases h : k' ∈ d
  · simp only [FileDict.insertKey, if_pos h]
    constructor
    · exact Or.inl
    · rintro (hk | rfl)
      · exact hk
      · exact h
  · simp [FileDict.insertKey, if_neg h]

theorem insertKey_of_mem {d : FileDict} {k : Key} (h : k ∈ d) :
    d.insertKey k = d := by
  simp [FileDict.insertKey, if_pos h]

theorem mem_insLines (d : FileDict) (ls : List Int) (k : Key) :
    k ∈ insLines d ls ↔ k ∈ d ∨ ∃ n ∈ ls, k = Key.line n := by
  induction ls generalizing d with
  | nil => simp [insLines]
  | cons n t ih =>
    show k ∈ insLines (d.insertKey (Key.line n)) t ↔ _
    rw [ih, mem_insertKey]
    constructor
    · rintro ((hk | rfl) | ⟨m, hm, rfl⟩)
      · exact Or.inl hk
      · exact Or.inr ⟨n, by simp⟩
      · exact Or.inr ⟨m, by simp [hm]⟩
    · rintro (hk | ⟨m, hm, rfl⟩)
      · exact Or.inl (Or.inl hk)
      · rcases List.mem_cons.mp hm with rfl | hm
        · exact Or.inl (Or.inr rfl)
        · exact Or.inr ⟨m, hm, rfl⟩

theorem insLines_append (d : FileDict) (l1 l2 : List Int) :
    insLines d (l1 ++ l2) = insLines (insLines d l1) l2 := by
  simp [insLines, List.foldl_append]

/-
Run lemmas.
-/

theorem run_append (cfg : Config) (s : TracerState) (l1 l2 : List Ev) :
    run cfg s (l1 ++ l2) = (run cfg s l1).bind (fun s' => run cfg s' l2) := by
  induction l1 generalizing s with
  | nil => simp [run]
  | cons e t ih =>
    show run cfg s (e :: (t ++ l2)) = _
    rw [run]
    cases h : step cfg s e with
    | none => simp [run, h]
    | some o => simp [run, h, ih]

theorem intRange_self (n : Int) : intRange n n = [n] := by
  have h1 : (n + 1 - n).toNat = 1 := by omega
  have h2 : List.range 1 = [0] := rfl
  rw [intRange, h1, h2]
  simp

/-
Single-step characterizations of the dispatcher.
-/

/-- State after the push half of a call event: the caller's context is
pushed on the active stack and, with a resolver, `last_coroutine` is
refreshed. -/
def pushCtx (cfg : Config) (s : TracerState) (sid : Nat) : TracerState :=
  let s1 := setStack cfg s sid ((s.plugin, s.cur_file_dict, s.last_line) :: activeStack cfg s sid)
  if cfg.coroutine then { s1 with last_coroutine := some sid } else s1

/-- State after the trace-decision-cache fill of a call event. -/
def cacheAdd (s : TracerState) (fn : String) (d : Disp) : TracerState :=
  if (lookupA fn s.should_trace_cache).isSome then s
  else { s with should_trace_cache := updateA fn d s.should_trace_cache }

/-- State after the lazy creation of a unit's dict (no plugin). -/
def ensureData (s : TracerState) (tn : String) : TracerState :=
  match lookupA tn s.data with
  | some _ => s
  | none => { s with data := s.data ++ [(tn, ([] : FileDict))] }

/-- State after a call event into a plainly traced unit. -/
def afterCallSimple (cfg : Config) (s : TracerState) (e : Ev) : TracerState :=
  let sa := cacheAdd (pushCtx cfg s e.stream) e.frame.filename (dispSimple e.frame.filename)
  let sb := ensureData sa e.frame.filename
  { sb with plugin := none, cur_file_dict := CurFile.dict e.frame.filename, last_line := -1 }

/-- State after the pop half of a return event, restoring context
`(p, c, l)` and leaving stack `t`. -/
def afterPop (cfg : Config) (s : TracerState) (sid : Nat) (p : Option String) (c : CurFile)
    (l : Int) (t : List Ctx) : TracerState :=
  { setStack cfg (if cfg.coroutine then { s with last_coroutine := some sid } else s) sid t with
    plugin := p, cur_file_dict := c, last_line := l }

@[simp] theorem setStack_data (cfg : Config) (s : TracerState) (sid : Nat) (l : List Ctx) :
    (setStack cfg s sid l).data = s.data := by
  by_cases hco : cfg.coroutine <;> simp [setStack, hco]

@[simp] theorem setStack_plugin_data (cfg : Config) (s : TracerState) (sid : Nat) (l : List Ctx) :
    (setStack cfg s sid l).plugin_data = s.plugin_data := by
  by_cases hco : cfg.coroutine <;> simp [setStack, hco]

@[simp] theorem setStack_cache (cfg : Config) (s : TracerState) (sid : Nat) (l : List Ctx) :
    (setStack cfg s sid l).should_trace_cache = s.should_trace_cache := by
  by_cases hco : cfg.coroutine <;> simp [setStack, hco]

@[simp] theorem setStack_plugin (cfg : Config) (s : TracerState) (sid : Nat) (l : List Ctx) :
    (setStack cfg s sid l).plugin = s.plugin := by
  by_cases hco : cfg.coroutine <;> simp [setStack, hco]

@[simp] theorem setStack_cur (cfg : Config) (s : TracerState) (sid : Nat) (l : List Ctx) :
    (setStack cfg s sid l).cur_file_dict = s.cur_file_dict := by
  by_cases hco : cfg.coroutine <;> simp [setStack, hco]

@[simp] theorem setStack_last_line (cfg : Config) (s : TracerState) (sid : Nat) (l : List Ctx) :
    (setStack cfg s sid l).last_line = s.last_line := by
  by_cases hco : cfg.coroutine <;> simp [setStack, hco]

@[simp] theorem setStack_last_exc_back (cfg : Config) (s : TracerState) (sid : Nat)
    (l : List Ctx) : (setStack cfg s sid l).last_exc_back = s.last_exc_back := by
  by_cases hco : cfg.coroutine <;> simp [setStack, hco]

@[simp] theorem setStack_last_exc_first (cfg : Config) (s : TracerState) (sid : Nat)
    (l : List Ctx) : (setStack cfg s sid l).last_exc_firstlineno = s.last_exc_firstlineno := by
  by_cases hco : cfg.coroutine <;> simp [setStack, hco]

@[simp] theorem setStack_last_coroutine (cfg : Config) (s : TracerState) (sid : Nat)
    (l : List Ctx) : (setStack cfg s sid l).last_coroutine = s.last_coroutine := by
  by_cases hco : cfg.coroutine <;> simp [setStack, hco]

@[simp] theorem setStack_stopped (cfg : Config) (s : TracerState) (sid : Nat) (l : List Ctx) :
    (setStack cfg s sid l).stopped = s.stopped := by
  by_cases hco : cfg.coroutine <;> simp [setStack, hco]

@[simp] theorem setStack_data_stack (cfg : Config) (s : TracerState) (sid : Nat) (l : List Ctx) :
    (setStack cfg s sid l).data_stack = l := by
  by_cases hco : cfg.coroutine <;> simp [setStack, hco]

theorem setStack_data_stacks (cfg : Config) (s : TracerState) (sid : Nat) (l : List Ctx) :
    (setStack cfg s sid l).data_stacks =
      if cfg.coroutine then updateA sid l s.data_stacks else s.data_stacks := by
  by_cases hco : cfg.coroutine <;> simp [setStack, hco]

/-- `activeStack` only reads the stack fields. -/
theorem activeStack_congr (cfg : Config) {s s' : TracerState} (sid : Nat)
    (h1 : s'.data_stacks = s.data_stacks) (h2 : s'.data_stack = s.data_stack) :
    activeStack cfg s' sid = activeStack cfg s sid := by
  simp only [activeStack, h1, h2]

theorem step_stopped (cfg : Config) (s : TracerState) (e : Ev) (h : s.stopped = true) :
    step cfg s e = some ⟨s, false, []⟩ := by
  simp [step, h]

theorem doRecovery_of_none (cfg : Config) {s : TracerState} (e : Ev)
    (h : s.last_exc_back = none) : doRecovery cfg s e = some s := by
  simp [doRecovery, h]

theorem doRecovery_clears (cfg : Config) (s : TracerState) (e : Ev) (s' : TracerState)
    (h : doRecovery cfg s e = some s') : s'.last_exc_back = none := by
  simp only [doRecovery] at h
  split at h
  · rename_i hm
    cases h
    exact hm
  · split at h
    · split at h
      · cases h
      · cases h
        rfl
    · cases h
      rfl

theorem step_not_stopped (cfg : Config) {s : TracerState} (e : Ev) (h : s.stopped = false) :
    step cfg s e = (doRecovery cfg s e).bind (fun s' => dispatch cfg s' e) := by
  simp [step, h]

theorem dispatch_returned_self (cfg : Config) (s : TracerState) (e : Ev) (o : StepOut)
    (h : dispatch cfg s e = some o) : o.returned_self = true := by
  obtain ⟨k, fr, sid⟩ := e
  cases k with
  | call =>
    simp only [dispatch] at h
    cases h
    rfl
  | line =>
    simp only [dispatch] at h
    by_cases hlf : (lineSpan cfg s ⟨EvKind.line, fr, sid⟩).1 = -1
    · rw [if_pos hlf] at h
      cases h
      rfl
    · rw [if_neg hlf] at h
      cases hc : s.cur_file_dict with
      | noneC =>
        rw [hc] at h
        cases h
        rfl
      | listInit =>
        rw [hc] at h
        by_cases ha : cfg.arcs
        · rw [if_pos ha] at h
          cases h
        · rw [if_neg ha] at h
          by_cases he : (intRange (lineSpan cfg s ⟨EvKind.line, fr, sid⟩).1
              (lineSpan cfg s ⟨EvKind.line, fr, sid⟩).2).isEmpty
          · rw [if_pos he] at h
            cases h
            rfl
          · rw [if_neg he] at h
            cases h
      | dict nm =>
        rw [hc] at h
        cases h
        rfl
  | ret =>
    simp only [dispatch] at h
    cases hs : activeStack cfg
        (if cfg.coroutine then
          { (if cfg.arcs && curTruthy s then
              recordKey s (Key.arc s.last_line (-fr.firstlineno)) else s) with
            last_coroutine := some sid }
         else (if cfg.arcs && curTruthy s then
              recordKey s (Key.arc s.last_line (-fr.firstlineno)) else s)) sid with
    | nil =>
      rw [hs] at h
      cases h
    | cons hd t =>
      obtain ⟨p, c, l⟩ := hd
      rw [hs] at h
      cases h
      rfl
  | exc =>
    simp only [dispatch] at h
    cases h
    rfl

theorem step_returned_self (cfg : Config) (s : TracerState) (e : Ev) (o : StepOut)
    (h : step cfg s e = some o) : o.returned_self = !s.stopped := by
  cases hst : s.stopped with
  | true =>
    rw [step_stopped cfg s e hst] at h
    cases h
    rfl
  | false =>
    rw [step_not_stopped cfg e hst] at h
    cases hr : doRecovery cfg s e with
    | none => rw [hr] at h; cases h
    | some s1 =>
      rw [hr] at h
      simp only [Option.some_bind] at h
      rw [dispatch_returned_self cfg s1 e o h]
      rfl

theorem step_line_dict (cfg : Config) (s : TracerState) (F : String) (fl n : Int) (sid : Nat)
    (hstop : s.stopped = false) (hexc : s.last_exc_back = none)
    (hplug : s.plugin = none) (hcfd : s.cur_file_dict = CurFile.dict F)
    (harcs : cfg.arcs = false) (hn : n ≠ -1) :
    step cfg s (lineEv F fl n sid) =
      some ⟨{ s with data := modifyA F (fun d => d.insertKey (Key.line n)) s.data, last_line := n }, true, []⟩ := by
  rw [step_not_stopped cfg _ hstop, doRecovery_of_none cfg _ hexc]
  simp only [Option.some_bind]
  simp [dispatch, lineEv, lineSpan, hplug, hcfd, hn, harcs, intRange_self, recordKey]

theorem step_ret_noarc (cfg : Config) (s : TracerState) (F : String) (fl : Int) (sid : Nat)
    (p : Option String) (c : CurFile) (l : Int) (t : List Ctx)
    (hstop : s.stopped = false) (hexc : s.last_exc_back = none) (harcs : cfg.arcs = false)
    (hstack : activeStack cfg s sid = (p, c, l) :: t) :
    step cfg s (retEv F fl sid) = some ⟨afterPop cfg s sid p c l t, true, []⟩ := by
  rw [step_not_stopped cfg _ hstop, doRecovery_of_none cfg _ hexc]
  simp only [Option.some_bind]
  have hg : (cfg.arcs && curTruthy s) = false := by rw [harcs]; rfl
  by_cases hco : cfg.coroutine
  · have hstack2 : activeStack cfg { s with last_coroutine := some sid } sid = (p, c, l) :: t := by
      rw [activeStack_congr cfg sid rfl rfl]
      exact hstack
    simp [dispatch, retEv, hg, hco, hstack2, afterPop]
  · simp [dispatch, retEv, hg, hco, hstack, afterPop]

theorem step_call_simple (cfg : Config) (s : TracerState) (e : Ev)
    (hstop : s.stopped = false) (hexc : s.last_exc_back = none) (hk : e.kind = EvKind.call)
    (hdisp : cfg.should_trace e.frame.filename e.frame = dispSimple e.frame.filename)
    (hcache : lookupA e.frame.filename s.should_trace_cache = none ∨
      lookupA e.frame.filename s.should_trace_cache = some (dispSimple e.frame.filename)) :
    step cfg s e = some ⟨afterCallSimple cfg s e, true,
      if (lookupA e.frame.filename s.should_trace_cache).isSome then []
      else [e.frame.filename]⟩ := by
  obtain ⟨k, fr, sid⟩ := e
  have hk' : k = EvKind.call := hk
  subst hk'
  rw [step_not_stopped cfg _ hstop, doRecovery_of_none cfg _ hexc]
  simp only [Option.some_bind]
  by_cases hco : cfg.coroutine <;> rcases hcache with hc | hc <;>
    simp [dispatch, hco, hc, hdisp, dispSimple, afterCallSimple, cacheAdd, pushCtx,
      ensureData, setStack, activeStack]

/-
Processing a whole well-paired body / tree, in line mode, for a plainly
traced unit `F`.
-/

@[simp] theorem pushCtx_data (cfg : Config) (s : TracerState) (sid : Nat) :
    (pushCtx cfg s sid).data = s.data := by
  by_cases hco : cfg.coroutine <;> simp [pushCtx, hco]

@[simp] theorem pushCtx_plugin_data (cfg : Config) (s : TracerState) (sid : Nat) :
    (pushCtx cfg s sid).plugin_data = s.plugin_data := by
  by_cases hco : cfg.coroutine <;> simp [pushCtx, hco]

@[simp] theorem pushCtx_cache (cfg : Config) (s : TracerState) (sid : Nat) :
    (pushCtx cfg s sid).should_trace_cache = s.should_trace_cache := by
  by_cases hco : cfg.coroutine <;> simp [pushCtx, hco]

@[simp] theorem pushCtx_plugin (cfg : Config) (s : TracerState) (sid : Nat) :
    (pushCtx cfg s sid).plugin = s.plugin := by
  by_cases hco : cfg.coroutine <;> simp [pushCtx, hco]

@[simp] theorem pushCtx_cur (cfg : Config) (s : TracerState) (sid : Nat) :
    (pushCtx cfg s sid).cur_file_dict = s.cur_file_dict := by
  by_cases hco : cfg.coroutine <;> simp [pushCtx, hco]

@[simp] theorem pushCtx_last_line (cfg : Config) (s : TracerState) (sid : Nat) :
    (pushCtx cfg s sid).last_line = s.last_line := by
  by_cases hco : cfg.coroutine <;> simp [pushCtx, hco]

@[simp] theorem pushCtx_last_exc_back (cfg : Config) (s : TracerState) (sid : Nat) :
    (pushCtx cfg s sid).last_exc_back = s.last_exc_back := by
  by_cases hco : cfg.coroutine <;> simp [pushCtx, hco]

@[simp] theorem pushCtx_last_exc_first (cfg : Config) (s : TracerState) (sid : Nat) :
    (pushCtx cfg s sid).last_exc_firstlineno = s.last_exc_firstlineno := by
  by_cases hco : cfg.coroutine <;> simp [pushCtx, hco]

@[simp] theorem pushCtx_stopped (cfg : Config) (s : TracerState) (sid : Nat) :
    (pushCtx cfg s sid).stopped = s.stopped := by
  by_cases hco : cfg.coroutine <;> simp [pushCtx, hco]

@[simp] theorem pushCtx_data_stack (cfg : Config) (s : TracerState) (sid : Nat) :
    (pushCtx cfg s sid).data_stack =
      (s.plugin, s.cur_file_dict, s.last_line) :: activeStack cfg s sid := by
  by_cases hco : cfg.coroutine <;> simp [pushCtx, hco]

theorem pushCtx_data_stacks (cfg : Config) (s : TracerState) (sid : Nat) :
    (pushCtx cfg s sid).data_stacks =
      if cfg.coroutine then
        updateA sid ((s.plugin, s.cur_file_dict, s.last_line) :: activeStack cfg s sid)
          s.data_stacks
      else s.data_stacks := by
  by_cases hco : cfg.coroutine <;> simp [pushCtx, hco, setStack]

theorem pushCtx_last_coroutine (cfg : Config) (s : TracerState) (sid : Nat) :
    (pushCtx cfg s sid).last_coroutine =
      if cfg.coroutine then some sid else s.last_coroutine := by
  by_cases hco : cfg.coroutine <;> simp [pushCtx, hco]

/-- The state after a whole body has been processed from a state whose
`cur_file_dict` is the dict of `F`: the body's lines are inserted into
`F`'s dict, `last_line` advances, and when a resolver is configured and
the body contains a nested call, the popped alias refreshes
`data_stack` and `last_coroutine`. -/
def afterBody (cfg : Config) (s : TracerState) (F : String) (sid : Nat) (b : CBody) :
    TracerState :=
  { s with
    data := modifyA F (fun d => insLines d (bodyLines b)) s.data,
    last_line := bodyLL s.last_line b,
    data_stack :=
      if cfg.coroutine && bodyHasNode b then (lookupA sid s.data_stacks).getD []
      else s.data_stack,
    last_coroutine :=
      if cfg.coroutine && bodyHasNode b then some sid else s.last_coroutine }

@[simp] theorem afterBody_plugin_data (cfg : Config) (s : TracerState) (F : String)
    (sid : Nat) (b : CBody) : (afterBody cfg s F sid b).plugin_data = s.plugin_data := rfl

@[simp] theorem afterBody_cache (cfg : Config) (s : TracerState) (F : String)
    (sid : Nat) (b : CBody) :
    (afterBody cfg s F sid b).should_trace_cache = s.should_trace_cache := rfl

@[simp] theorem afterBody_plugin (cfg : Config) (s : TracerState) (F : String)
    (sid : Nat) (b : CBody) : (afterBody cfg s F sid b).plugin = s.plugin := rfl

@[simp] theorem afterBody_cur (cfg : Config) (s : TracerState) (F : String)
    (sid : Nat) (b : CBody) : (afterBody cfg s F sid b).cur_file_dict = s.cur_file_dict := rfl

@[simp] theorem afterBody_last_exc_back (cfg : Config) (s : TracerState) (F : String)
    (sid : Nat) (b : CBody) : (afterBody cfg s F sid b).last_exc_back = s.last_exc_back := rfl

@[simp] theorem afterBody_last_exc_first (cfg : Config) (s : TracerState) (F : String)
    (sid : Nat) (b : CBody) :
    (afterBody cfg s F sid b).last_exc_firstlineno = s.last_exc_firstlineno := rfl

@[simp] theorem afterBody_stopped (cfg : Config) (s : TracerState) (F : String)
    (sid : Nat) (b : CBody) : (afterBody cfg s F sid b).stopped = s.stopped := rfl

@[simp] theorem afterBody_data_stacks (cfg : Config) (s : TracerState) (F : String)
    (sid : Nat) (b : CBody) : (afterBody cfg s F sid b).data_stacks = s.data_stacks := rfl

@[simp] theorem afterBody_data (cfg : Config) (s : TracerState) (F : String)
    (sid : Nat) (b : CBody) :
    (afterBody cfg s F sid b).data = modifyA F (fun d => insLines d (bodyLines b)) s.data := rfl

@[simp] theorem afterBody_last_line (cfg : Config) (s : TracerState) (F : String)
    (sid : Nat) (b : CBody) :
    (afterBody cfg s F sid b).last_line = bodyLL s.last_line b := rfl

theorem insLines_cons (d : FileDict) (n : Int) (ls : List Int) :
    insLines d (n :: ls) = insLines (d.insertKey (Key.line n)) ls := rfl

theorem treeSize_pos (t : CTree) : 1 ≤ treeSize t := by
  cases t <;> simp [treeSize]

@[simp] theorem afterBody_data_stack (cfg : Config) (s : TracerState) (F : String)
    (sid : Nat) (b : CBody) :
    (afterBody cfg s F sid b).data_stack =
      if cfg.coroutine && bodyHasNode b then (lookupA sid s.data_stacks).getD []
      else s.data_stack := rfl

@[simp] theorem afterBody_last_coroutine (cfg : Config) (s : TracerState) (F : String)
    (sid : Nat) (b : CBody) :
    (afterBody cfg s F sid b).last_coroutine =
      if cfg.coroutine && bodyHasNode b then some sid else s.last_coroutine := rfl

@[simp] theorem afterPop_data (cfg : Config) (s : TracerState) (sid : Nat) (p : Option String)
    (c : CurFile) (l : Int) (t : List Ctx) : (afterPop cfg s sid p c l t).data = s.data := by
  by_cases hco : cfg.coroutine <;> simp [afterPop, hco]

@[simp] theorem afterPop_plugin_data (cfg : Config) (s : TracerState) (sid : Nat)
    (p : Option String) (c : CurFile) (l : Int) (t : List Ctx) :
    (afterPop cfg s sid p c l t).plugin_data = s.plugin_data := by
  by_cases hco : cfg.coroutine <;> simp [afterPop, hco]

@[simp] theorem afterPop_cache (cfg : Config) (s : TracerState) (sid : Nat) (p : Option String)
    (c : CurFile) (l : Int) (t : List Ctx) :
    (afterPop cfg s sid p c l t).should_trace_cache = s.should_trace_cache := by
  by_cases hco : cfg.coroutine <;> simp [afterPop, hco]

@[simp] theorem afterPop_plugin (cfg : Config) (s : TracerState) (sid : Nat) (p : Option String)
    (c : CurFile) (l : Int) (t : List Ctx) : (afterPop cfg s sid p c l t).plugin = p := by
  by_cases hco : cfg.coroutine <;> simp [afterPop, hco]

@[simp] theorem afterPop_cur (cfg : Config) (s : TracerState) (sid : Nat) (p : Option String)
    (c : CurFile) (l : Int) (t : List Ctx) : (afterPop cfg s sid p c l t).cur_file_dict = c := by
  by_cases hco : cfg.coroutine <;> simp [afterPop, hco]

@[simp] theorem afterPop_last_line (cfg : Config) (s : TracerState) (sid : Nat)
    (p : Option String) (c : CurFile) (l : Int) (t : List Ctx) :
    (afterPop cfg s sid p c l t).last_line = l := by
  by_cases hco : cfg.coroutine <;> simp [afterPop, hco]

@[simp] theorem afterPop_data_stack (cfg : Config) (s : TracerState) (sid : Nat)
    (p : Option String) (c : CurFile) (l : Int) (t : List Ctx) :
    (afterPop cfg s sid p c l t).data_stack = t := by
  by_cases hco : cfg.coroutine <;> simp [afterPop, hco]

@[simp] theorem afterPop_last_exc_back (cfg : Config) (s : TracerState) (sid : Nat)
    (p : Option String) (c : CurFile) (l : Int) (t : List Ctx) :
    (afterPop cfg s sid p c l t).last_exc_back = s.last_exc_back := by
  by_cases hco : cfg.coroutine <;> simp [afterPop, hco]

@[simp] theorem afterPop_last_exc_first (cfg : Config) (s : TracerState) (sid : Nat)
    (p : Option String) (c : CurFile) (l : Int) (t : List Ctx) :
    (afterPop cfg s sid p c l t).last_exc_firstlineno = s.last_exc_firstlineno := by
  by_cases hco : cfg.coroutine <;> simp [afterPop, hco]

@[simp] theorem afterPop_stopped (cfg : Config) (s : TracerState) (sid : Nat)
    (p : Option String) (c : CurFile) (l : Int) (t : List Ctx) :
    (afterPop cfg s sid p c l t).stopped = s.stopped := by
  by_cases hco : cfg.coroutine <;> simp [afterPop, hco]

theorem afterPop_data_stacks (cfg : Config) (s : TracerState) (sid : Nat) (p : Option String)
    (c : CurFile) (l : Int) (t : List Ctx) :
    (afterPop cfg s sid p c l t).data_stacks =
      if cfg.coroutine then updateA sid t s.data_stacks else s.data_stacks := by
  by_cases hco : cfg.coroutine <;> simp [afterPop, hco, setStack]

theorem afterPop_last_coroutine (cfg : Config) (s : TracerState) (sid : Nat)
    (p : Option String) (c : CurFile) (l : Int) (t : List Ctx) :
    (afterPop cfg s sid p c l t).last_coroutine =
      if cfg.coroutine then some sid else s.last_coroutine := by
  by_cases hco : cfg.coroutine <;> simp [afterPop, hco]

@[simp] theorem callEv_filename (F : String) (fl : Int) (sid : Nat) :
    (callEv F fl sid).frame.filename = F := rfl

@[simp] theorem callEv_stream (F : String) (fl : Int) (sid : Nat) :
    (callEv F fl sid).stream = sid := rfl

/-- The state entered by a call event into an already-known plainly
traced unit `F`: context pushed, registers aimed at `F`'s dict. -/
def enterState (cfg : Config) (s : TracerState) (F : String) (sid : Nat) : TracerState :=
  { pushCtx cfg s sid with plugin := none, cur_file_dict := CurFile.dict F, last_line := -1 }

@[simp] theorem enterState_data (cfg : Config) (s : TracerState) (F : String) (sid : Nat) :
    (enterState cfg s F sid).data = s.data := by simp [enterState]

@[simp] theorem enterState_plugin_data (cfg : Config) (s : TracerState) (F : String)
    (sid : Nat) : (enterState cfg s F sid).plugin_data = s.plugin_data := by simp [enterState]

@[simp] theorem enterState_cache (cfg : Config) (s : TracerState) (F : String) (sid : Nat) :
    (enterState cfg s F sid).should_trace_cache = s.should_trace_cache := by simp [enterState]

@[simp] theorem enterState_plugin (cfg : Config) (s : TracerState) (F : String) (sid : Nat) :
    (enterState cfg s F sid).plugin = none := by simp [enterState]

@[simp] theorem enterState_cur (cfg : Config) (s : TracerState) (F : String) (sid : Nat) :
    (enterState cfg s F sid).cur_file_dict = CurFile.dict F := by simp [enterState]

@[simp] theorem enterState_last_line (cfg : Config) (s : TracerState) (F : String) (sid : Nat) :
    (enterState cfg s F sid).last_line = -1 := by simp [enterState]

@[simp] theorem enterState_data_stack (cfg : Config) (s : TracerState) (F : String)
    (sid : Nat) : (enterState cfg s F sid).data_stack =
      (s.plugin, s.cur_file_dict, s.last_line) :: activeStack cfg s sid := by simp [enterState]

theorem enterState_data_stacks (cfg : Config) (s : TracerState) (F : String) (sid : Nat) :
    (enterState cfg s F sid).data_stacks =
      if cfg.coroutine then
        updateA sid ((s.plugin, s.cur_file_dict, s.last_line) :: activeStack cfg s sid)
          s.data_stacks
      else s.data_stacks := by
  simp [enterState, pushCtx_data_stacks]

@[simp] theorem enterState_last_exc_back (cfg : Config) (s : TracerState) (F : String)
    (sid : Nat) : (enterState cfg s F sid).last_exc_back = s.last_exc_back := by
  simp [enterState]

@[simp] theorem enterState_last_exc_first (cfg : Config) (s : TracerState) (F : String)
    (sid : Nat) :
    (enterState cfg s F sid).last_exc_firstlineno = s.last_exc_firstlineno := by
  simp [enterState]

theorem enterState_last_coroutine (cfg : Config) (s : TracerState) (F : String) (sid : Nat) :
    (enterState cfg s F sid).last_coroutine =
      if cfg.coroutine then some sid else s.last_coroutine := by
  simp [enterState, pushCtx_last_coroutine]

@[simp] theorem enterState_stopped (cfg : Config) (s : TracerState) (F : String) (sid : Nat) :
    (enterState cfg s F sid).stopped = s.stopped := by simp [enterState]

/-- Processing the serialization of a whole body from a state that is
inside the traced scope of `F` (line mode, no resolver interference):
exactly the body's lines get recorded into `F`'s dict, `last_line`
follows the body, and everything else is preserved up to the stack-alias
refresh. -/
theorem runBody (k : Nat) : ∀ (b : CBody) (cfg : Config) (s : TracerState) (F : String)
    (fl : Int) (sid : Nat),
    bodySize b ≤ k →
    cfg.arcs = false →
    (∀ fr, cfg.should_trace F fr = dispSimple F) →
    s.stopped = false →
    s.last_exc_back = none →
    s.plugin = none →
    s.cur_file_dict = CurFile.dict F →
    lookupA F s.should_trace_cache = some (dispSimple F) →
    (lookupA F s.data).isSome = true →
    (cfg.coroutine = true → (lookupA sid s.data_stacks).isSome = true) →
    (∀ n ∈ bodyLines b, n ≠ -1) →
    run cfg s (serBody F fl sid b) = some (afterBody cfg s F sid b) := by
  induction k with
  | zero =>
    intro b cfg s F fl sid hsz harcs horacle hstop hexc hplug hcfd hcache hdata hstacks hlines
    cases b with
    | nil =>
      simp [run, serBody, afterBody, bodyLines, bodyLL, bodyHasNode, insLines, modifyA_id]
    | cons t rest =>
      exfalso
      have h1 := treeSize_pos t
      simp [bodySize] at hsz
      omega
  | succ k ih =>
    intro b cfg s F fl sid hsz harcs horacle hstop hexc hplug hcfd hcache hdata hstacks hlines
    cases b with
    | nil =>
      simp [run, serBody, afterBody, bodyLines, bodyLL, bodyHasNode, insLines, modifyA_id]
    | cons t rest =>
      obtain ⟨dd, hdd⟩ := Option.isSome_iff_exists.mp hdata
      cases t with
      | cline n =>
        have hn : n ≠ -1 := hlines n (by simp [bodyLines, treeLines])
        have hrest : ∀ m ∈ bodyLines rest, m ≠ -1 := by
          intro m hm
          refine hlines m ?_
          simp [bodyLines, treeLines]
          exact Or.inr hm
        have hsz' : bodySize rest ≤ k := by
          simp [bodySize, treeSize] at hsz
          omega
        have hstep := step_line_dict cfg s F fl n sid hstop hexc hplug hcfd harcs hn
        have hih := ih rest cfg
          { s with data := modifyA F (fun d => d.insertKey (Key.line n)) s.data, last_line := n }
          F fl sid hsz' harcs horacle (by simp [hstop]) (by simp [hexc]) (by simp [hplug])
          (by simp [hcfd]) (by simp [hcache])
          (by simp [lookupA_modifyA_self, hdd])
          (by intro hco; simp only []; exact hstacks hco) hrest
        simp only [serBody, serTree, List.append_eq, List.nil_append, List.cons_append,
          List.singleton_append, run, hstep]
        rw [hih]
        congr 1
        simp [afterBody, modifyA_modifyA, bodyLines, treeLines, bodyLL, itemLL, bodyHasNode,
          insLines_cons]
      | node b' =>
        have hlb : ∀ m ∈ bodyLines b', m ≠ -1 := by
          intro m hm
          refine hlines m ?_
          simp [bodyLines, treeLines]
          exact Or.inl hm
        have hrest : ∀ m ∈ bodyLines rest, m ≠ -1 := by
          intro m hm
          refine hlines m ?_
          simp [bodyLines, treeLines]
          exact Or.inr hm
        have hsz1 : bodySize b' ≤ k := by
          simp [bodySize, treeSize] at hsz
          omega
        have hsz2 : bodySize rest ≤ k := by
          simp [bodySize, treeSize] at hsz
          omega
        have hcall := step_call_simple cfg s (callEv F fl sid) hstop hexc rfl (horacle _)
          (Or.inr hcache)
        have hIn : afterCallSimple cfg s (callEv F fl sid) = enterState cfg s F sid := by
          simp only [afterCallSimple, callEv_filename, callEv_stream, enterState]
          simp [cacheAdd, ensureData, hcache, hdd]
        rw [hIn] at hcall
        have hcalls : (if (lookupA (callEv F fl sid).frame.filename s.should_trace_cache).isSome
            then ([] : List String) else [(callEv F fl sid).frame.filename]) = [] := by
          simp [hcache]
        rw [hcalls] at hcall
        have hbody := ih b' cfg (enterState cfg s F sid) F fl sid hsz1 harcs horacle
          (by simp [hstop]) (by simp [hexc]) (by simp) (by simp) (by simp [hcache])
          (by simp [hdd]) (by intro hco; simp [enterState_data_stacks, hco, lookupA_updateA_self])
          hlb
        have hstackMid : activeStack cfg (afterBody cfg (enterState cfg s F sid) F sid b') sid =
            (none, CurFile.dict F, s.last_line) :: activeStack cfg s sid := by
          by_cases hco : cfg.coroutine
          · simp [activeStack, hco, enterState_data_stacks, lookupA_updateA_self, hplug, hcfd]
          · simp [activeStack, hco, hplug, hcfd]
        have hret := step_ret_noarc cfg (afterBody cfg (enterState cfg s F sid) F sid b') F fl
          sid none (CurFile.dict F) s.last_line (activeStack cfg s sid)
          (by simp [hstop]) (by simp [hexc]) harcs hstackMid
        have hihrest := ih rest cfg
          (afterPop cfg (afterBody cfg (enterState cfg s F sid) F sid b') sid none
            (CurFile.dict F) s.last_line (activeStack cfg s sid))
          F fl sid hsz2 harcs horacle (by simp [hstop]) (by simp [hexc]) (by simp)
          (by simp) (by simp [hcache]) (by simp [lookupA_modifyA_self, hdd])
          (by intro hco; simp [afterPop_data_stacks, hco, lookupA_updateA_self]) hrest
        simp only [serBody, serTree, List.append_eq, List.nil_append, List.cons_append,
          List.singleton_append, run, hcall]
        rw [run_append, run_append, hbody]
        simp only [Option.some_bind]
        have hrunret : run cfg (afterBody cfg (enterState cfg s F sid) F sid b')
            [retEv F fl sid] =
            some (afterPop cfg (afterBody cfg (enterState cfg s F sid) F sid b') sid none
              (CurFile.dict F) s.last_line (activeStack cfg s sid)) := by
          simp only [run, hret]
        rw [hrunret]
        simp only [Option.some_bind]
        rw [hihrest]
        congr 1
        by_cases hco : cfg.coroutine
        · obtain ⟨L, hL⟩ := Option.isSome_iff_exists.mp (hstacks hco)
          simp [afterBody, afterPop_data_stacks, afterPop_last_coroutine, hco,
            modifyA_modifyA, bodyLines, treeLines, bodyLL, itemLL, bodyHasNode, insLines_append,
            activeStack, hL, hplug, hcfd, hexc, enterState_data_stacks, lookupA_updateA_self,
            updateA_updateA, updateA_self hL]
        · simp [afterBody, afterPop_data_stacks, afterPop_last_coroutine, hco,
            modifyA_modifyA, bodyLines, treeLines, bodyLL, itemLL, bodyHasNode, insLines_append,
            activeStack, hplug, hcfd, hexc, enterState_data_stacks, enterState_last_coroutine]

/-
The top-level tree: a complete call into `F` from an arbitrary outer
state.
-/

theorem lookupA_append_missing {α β : Type} [DecidableEq α] {x : α} (v : β)
    {m : List (α × β)} (h : lookupA x m = none) : lookupA x (m ++ [(x, v)]) = some v := by
  induction m with
  | nil => simp [lookupA]
  | cons hd t ih =>
    obtain ⟨z, w⟩ := hd
    by_cases hz : z = x
    · subst hz
      simp [lookupA] at h
    · simp [lookupA, hz] at h
      simp [lookupA, hz, ih h]

theorem lookupA_append_single_ne {α β : Type} [DecidableEq α] {y x : α} (v : β)
    (m : List (α × β)) (h : y ≠ x) : lookupA y (m ++ [(x, v)]) = lookupA y m := by
  have hxy : ¬ x = y := fun hh => h hh.symm
  induction m with
  | nil => simp [lookupA, hxy]
  | cons hd t ih =>
    obtain ⟨z, w⟩ := hd
    by_cases hz : z = y <;> simp [lookupA, hz, ih]

@[simp] theorem cacheAdd_data (s : TracerState) (fn : String) (d : Disp) :
    (cacheAdd s fn d).data = s.data := by
  by_cases h : (lookupA fn s.should_trace_cache).isSome <;> simp [cacheAdd, h]

@[simp] theorem cacheAdd_plugin_data (s : TracerState) (fn : String) (d : Disp) :
    (cacheAdd s fn d).plugin_data = s.plugin_data := by
  by_cases h : (lookupA fn s.should_trace_cache).isSome <;> simp [cacheAdd, h]

@[simp] theorem cacheAdd_plugin (s : TracerState) (fn : String) (d : Disp) :
    (cacheAdd s fn d).plugin = s.plugin := by
  by_cases h : (lookupA fn s.should_trace_cache).isSome <;> simp [cacheAdd, h]

@[simp] theorem cacheAdd_cur (s : TracerState) (fn : String) (d : Disp) :
    (cacheAdd s fn d).cur_file_dict = s.cur_file_dict := by
  by_cases h : (lookupA fn s.should_trace_cache).isSome <;> simp [cacheAdd, h]

@[simp] theorem cacheAdd_last_line (s : TracerState) (fn : String) (d : Disp) :
    (cacheAdd s fn d).last_line = s.last_line := by
  by_cases h : (lookupA fn s.should_trace_cache).isSome <;> simp [cacheAdd, h]

@[simp] theorem cacheAdd_data_stack (s : TracerState) (fn : String) (d : Disp) :
    (cacheAdd s fn d).data_stack = s.data_stack := by
  by_cases h : (lookupA fn s.should_trace_cache).isSome <;> simp [cacheAdd, h]

@[simp] theorem cacheAdd_data_stacks (s : TracerState) (fn : String) (d : Disp) :
    (cacheAdd s fn d).data_stacks = s.data_stacks := by
  by_cases h : (lookupA fn s.should_trace_cache).isSome <;> simp [cacheAdd, h]

@[simp] theorem cacheAdd_last_exc_back (s : TracerState) (fn : String) (d : Disp) :
    (cacheAdd s fn d).last_exc_back = s.last_exc_back := by
  by_cases h : (lookupA fn s.should_trace_cache).isSome <;> simp [cacheAdd, h]

@[simp] theorem cacheAdd_last_exc_first (s : TracerState) (fn : String) (d : Disp) :
    (cacheAdd s fn d).last_exc_firstlineno = s.last_exc_firstlineno := by
  by_cases h : (lookupA fn s.should_trace_cache).isSome <;> simp [cacheAdd, h]

@[simp] theorem cacheAdd_last_coroutine (s : TracerState) (fn : String) (d : Disp) :
    (cacheAdd s fn d).last_coroutine = s.last_coroutine := by
  by_cases h : (lookupA fn s.should_trace_cache).isSome <;> simp [cacheAdd, h]

@[simp] theorem cacheAdd_stopped (s : TracerState) (fn : String) (d : Disp) :
    (cacheAdd s fn d).stopped = s.stopped := by
  by_cases h : (lookupA fn s.should_trace_cache).isSome <;> simp [cacheAdd, h]

theorem cacheAdd_cache (s : TracerState) (fn : String) (d : Disp) :
    (cacheAdd s fn d).should_trace_cache =
      if (lookupA fn s.should_trace_cache).isSome then s.should_trace_cache
      else updateA fn d s.should_trace_cache := by
  by_cases h : (lookupA fn s.should_trace_cache).isSome <;> simp [cacheAdd, h]

theorem ensureData_data (s : TracerState) (tn : String) :
    (ensureData s tn).data =
      if (lookupA tn s.data).isSome then s.data else s.data ++ [(tn, ([] : FileDict))] := by
  cases h : lookupA tn s.data <;> simp [ensureData, h]

@[simp] theorem ensureData_plugin_data (s : TracerState) (tn : String) :
    (ensureData s tn).plugin_data = s.plugin_data := by
  cases h : lookupA tn s.data <;> simp [ensureData, h]

@[simp] theorem ensureData_cache (s : TracerState) (tn : String) :
    (ensureData s tn).should_trace_cache = s.should_trace_cache := by
  cases h : lookupA tn s.data <;> simp [ensureData, h]

@[simp] theorem ensureData_plugin (s : TracerState) (tn : String) :
    (ensureData s tn).plugin = s.plugin := by
  cases h : lookupA tn s.data <;> simp [ensureData, h]

@[simp] theorem ensureData_cur (s : TracerState) (tn : String) :
    (ensureData s tn).cur_file_dict = s.cur_file_dict := by
  cases h : lookupA tn s.data <;> simp [ensureData, h]

@[simp] theorem ensureData_last_line (s : TracerState) (tn : String) :
    (ensureData s tn).last_line = s.last_line := by
  cases h : lookupA tn s.data <;> simp [ensureData, h]

@[simp] theorem ensureData_data_stack (s : TracerState) (tn : String) :
    (ensureData s tn).data_stack = s.data_stack := by
  cases h : lookupA tn s.data <;> simp [ensureData, h]

@[simp] theorem ensureData_data_stacks (s : TracerState) (tn : String) :
    (ensureData s tn).data_stacks = s.data_stacks := by
  cases h : lookupA tn s.data <;> simp [ensureData, h]

@[simp] theorem ensureData_last_exc_back (s : TracerState) (tn : String) :
    (ensureData s tn).last_exc_back = s.last_exc_back := by
  cases h : lookupA tn s.data <;> simp [ensureData, h]

@[simp] theorem ensureData_last_exc_first (s : TracerState) (tn : String) :
    (ensureData s tn).last_exc_firstlineno = s.last_exc_firstlineno := by
  cases h : lookupA tn s.data <;> simp [ensureData, h]

@[simp] theorem ensureData_last_coroutine (s : TracerState) (tn : String) :
    (ensureData s tn).last_coroutine = s.last_coroutine := by
  cases h : lookupA tn s.data <;> simp [ensureData, h]

@[simp] theorem ensureData_stopped (s : TracerState) (tn : String) :
    (ensureData s tn).stopped = s.stopped := by
  cases h : lookupA tn s.data <;> simp [ensureData, h]

theorem ensureData_lookup_isSome (s : TracerState) (tn : String) :
    (lookupA tn (ensureData s tn).data).isSome = true := by
  cases h : lookupA tn s.data with
  | none => simp [ensureData_data, h, lookupA_append_missing _ h]
  | some d => simp [ensureData_data, h]

/-- The state after a complete top-level call tree into `F` (line mode):
the cache learns `F`, the data store gains `F`'s lines, and the dispatch
registers return to the caller's values. -/
def afterNode (cfg : Config) (s : TracerState) (F : String) (sid : Nat) (b : CBody) :
    TracerState :=
  { s with
    data := modifyA F (fun d => insLines d (bodyLines b)) (ensureData s F).data,
    should_trace_cache := (cacheAdd s F (dispSimple F)).should_trace_cache,
    data_stack :=
      if cfg.coroutine then (lookupA sid s.data_stacks).getD [] else s.data_stack,
    data_stacks :=
      if cfg.coroutine then updateA sid ((lookupA sid s.data_stacks).getD []) s.data_stacks
      else s.data_stacks,
    last_coroutine := if cfg.coroutine then some sid else s.last_coroutine }

/-- Processing one complete well-paired call tree into the plainly traced
unit `F` (line mode) from any non-stopped, recovery-clear state. -/
theorem runNode (cfg : Config) (s : TracerState) (F : String) (fl : Int) (sid : Nat)
    (b : CBody)
    (harcs : cfg.arcs = false)
    (horacle : ∀ fr, cfg.should_trace F fr = dispSimple F)
    (hstop : s.stopped = false)
    (hexc : s.last_exc_back = none)
    (hcache : lookupA F s.should_trace_cache = none ∨
      lookupA F s.should_trace_cache = some (dispSimple F))
    (hlines : ∀ n ∈ bodyLines b, n ≠ -1) :
    run cfg s (serTree F fl sid (CTree.node b)) = some (afterNode cfg s F sid b) := by
  have hcall := step_call_simple cfg s (callEv F fl sid) hstop hexc rfl (horacle _) hcache
  have hcacheIn : lookupA F (afterCallSimple cfg s (callEv F fl sid)).should_trace_cache =
      some (dispSimple F) := by
    rcases hcache with hc | hc <;>
      simp [afterCallSimple, cacheAdd_cache, hc, lookupA_updateA_self]
  have hbody := runBody (bodySize b) b cfg (afterCallSimple cfg s (callEv F fl sid)) F fl sid
    (le_refl _) harcs horacle (by simp [afterCallSimple, hstop])
    (by simp [afterCallSimple, hexc]) (by simp [afterCallSimple])
    (by simp [afterCallSimple]) hcacheIn
    (by simp [afterCallSimple]; exact ensureData_lookup_isSome _ _)
    (by intro hco
        simp [afterCallSimple, pushCtx_data_stacks, hco, lookupA_updateA_self]) hlines
  have hstackMid : activeStack cfg
      (afterBody cfg (afterCallSimple cfg s (callEv F fl sid)) F sid b) sid =
      (s.plugin, s.cur_file_dict, s.last_line) :: activeStack cfg s sid := by
    by_cases hco : cfg.coroutine
    · simp [activeStack, hco, afterCallSimple, pushCtx_data_stacks, lookupA_updateA_self]
    · simp [activeStack, hco, afterCallSimple]
  have hret := step_ret_noarc cfg
    (afterBody cfg (afterCallSimple cfg s (callEv F fl sid)) F sid b) F fl sid
    s.plugin s.cur_file_dict s.last_line (activeStack cfg s sid)
    (by simp [afterCallSimple, hstop]) (by simp [afterCallSimple, hexc]) harcs hstackMid
  simp only [serTree, List.append_eq, List.nil_append, List.cons_append,
    List.singleton_append, run, hcall]
  rw [run_append, hbody]
  simp only [Option.some_bind]
  have hrunret : run cfg
      (afterBody cfg (afterCallSimple cfg s (callEv F fl sid)) F sid b) [retEv F fl sid] =
      some (afterPop cfg
        (afterBody cfg (afterCallSimple cfg s (callEv F fl sid)) F sid b) sid
        s.plugin s.cur_file_dict s.last_line (activeStack cfg s sid)) := by
    simp only [run, hret]
  rw [hrunret]
  congr 1
  by_cases hco : cfg.coroutine
  · simp [afterNode, afterBody, afterPop, setStack, hco,
      afterCallSimple, pushCtx_data_stacks, pushCtx_last_coroutine, updateA_updateA,
      activeStack, ensureData_data, cacheAdd_cache]
  · simp [afterNode, afterBody, afterPop, setStack, hco,
      afterCallSimple, pushCtx_data_stacks, pushCtx_last_coroutine, activeStack,
      ensureData_data, cacheAdd_cache]

/-
Support for the return / exception-recovery equivalence.
-/

@[simp] theorem recordKey_plugin_data (s : TracerState) (k : Key) :
    (recordKey s k).plugin_data = s.plugin_data := by
  cases h : s.cur_file_dict <;> simp [recordKey, h]

@[simp] theorem recordKey_cache (s : TracerState) (k : Key) :
    (recordKey s k).should_trace_cache = s.should_trace_cache := by
  cases h : s.cur_file_dict <;> simp [recordKey, h]

@[simp] theorem recordKey_plugin (s : TracerState) (k : Key) :
    (recordKey s k).plugin = s.plugin := by
  cases h : s.cur_file_dict <;> simp [recordKey, h]

@[simp] theorem recordKey_cur (s : TracerState) (k : Key) :
    (recordKey s k).cur_file_dict = s.cur_file_dict := by
  cases h : s.cur_file_dict <;> simp [recordKey, h]

@[simp] theorem recordKey_last_line (s : TracerState) (k : Key) :
    (recordKey s k).last_line = s.last_line := by
  cases h : s.cur_file_dict <;> simp [recordKey, h]

@[simp] theorem recordKey_data_stack (s : TracerState) (k : Key) :
    (recordKey s k).data_stack = s.data_stack := by
  cases h : s.cur_file_dict <;> simp [recordKey, h]

@[simp] theorem recordKey_data_stacks (s : TracerState) (k : Key) :
    (recordKey s k).data_stacks = s.data_stacks := by
  cases h : s.cur_file_dict <;> simp [recordKey, h]

@[simp] theorem recordKey_last_exc_back (s : TracerState) (k : Key) :
    (recordKey s k).last_exc_back = s.last_exc_back := by
  cases h : s.cur_file_dict <;> simp [recordKey, h]

@[simp] theorem recordKey_last_exc_first (s : TracerState) (k : Key) :
    (recordKey s k).last_exc_firstlineno = s.last_exc_firstlineno := by
  cases h : s.cur_file_dict <;> simp [recordKey, h]

@[simp] theorem recordKey_last_coroutine (s : TracerState) (k : Key) :
    (recordKey s k).last_coroutine = s.last_coroutine := by
  cases h : s.cur_file_dict <;> simp [recordKey, h]

@[simp] theorem recordKey_stopped (s : TracerState) (k : Key) :
    (recordKey s k).stopped = s.stopped := by
  cases h : s.cur_file_dict <;> simp [recordKey, h]

theorem step_exc (cfg : Config) (s : TracerState) (fr : Frame) (sid : Nat)
    (hstop : s.stopped = false) (hexc : s.last_exc_back = none) :
    step cfg s ⟨EvKind.exc, fr, sid⟩ =
      some ⟨{ s with last_exc_back := fr.back, last_exc_firstlineno := fr.firstlineno }, true, []⟩ := by
  rw [step_not_stopped cfg _ hstop, doRecovery_of_none cfg _ hexc]
  simp [dispatch]

theorem step_ret_any (cfg : Config) (s : TracerState) (fr : Frame) (sid : Nat)
    (p : Option String) (c : CurFile) (l : Int) (t : List Ctx)
    (hstop : s.stopped = false) (hexc : s.last_exc_back = none)
    (hstack : activeStack cfg s sid = (p, c, l) :: t) :
    step cfg s ⟨EvKind.ret, fr, sid⟩ =
      some ⟨afterPop cfg
        (if cfg.arcs && curTruthy s then
          recordKey s (Key.arc s.last_line (-fr.firstlineno)) else s) sid p c l t, true, []⟩ := by
  rw [step_not_stopped cfg _ hstop, doRecovery_of_none cfg _ hexc]
  simp only [Option.some_bind]
  by_cases hco : cfg.coroutine
  · simp only [activeStack, hco, if_true] at hstack
    by_cases hg : (cfg.arcs && curTruthy s) = true
    · simp [dispatch, hg, hco, activeStack, hstack, afterPop, setStack]
    · have hg' : (cfg.arcs && curTruthy s) = false := by
        cases hgg : cfg.arcs && curTruthy s
        · rfl
        · exact absurd hgg hg
      simp [dispatch, hg', hco, activeStack, hstack, afterPop, setStack]
  · simp only [activeStack, hco, Bool.false_eq_true, if_false] at hstack
    by_cases hg : (cfg.arcs && curTruthy s) = true
    · simp [dispatch, hg, hco, activeStack, hstack, afterPop, setStack]
    · have hg' : (cfg.arcs && curTruthy s) = false := by
        cases hgg : cfg.arcs && curTruthy s
        · rfl
        · exact absurd hgg hg
      simp [dispatch, hg', hco, activeStack, hstack, afterPop, setStack]

theorem run_two (cfg : Config) (s : TracerState) (e1 e2 : Ev) :
    run cfg s [e1, e2] =
      (step cfg s e1).bind (fun o1 => (step cfg o1.state e2).map (fun o2 => o2.state)) := by
  cases h1 : step cfg s e1 with
  | none => simp [run, h1]
  | some o1 =>
    cases h2 : step cfg o1.state e2 with
    | none => simp [run, h1, h2]
    | some o2 => simp [run, h1, h2]

/-- Forget the two write-only diagnostic fields of the tracer state: the
remembered first line of the last raising scope, and the last observed
stream identity.  Neither is ever read by the dispatcher outside the
recovery check that consumes the pending marker. -/
def eraseDiag (s : TracerState) : TracerState :=
  { s with last_exc_firstlineno := 0, last_coroutine := none }

@[simp] theorem eraseDiag_data (s : TracerState) : (eraseDiag s).data = s.data := rfl

@[simp] theorem eraseDiag_last_exc_back (s : TracerState) :
    (eraseDiag s).last_exc_back = s.last_exc_back := rfl

@[simp] theorem eraseDiag_stopped (s : TracerState) : (eraseDiag s).stopped = s.stopped := rfl

@[ext] theorem TracerState.extF {a b : TracerState}
    (h1 : a.data = b.data) (h2 : a.plugin_data = b.plugin_data)
    (h3 : a.should_trace_cache = b.should_trace_cache) (h4 : a.plugin = b.plugin)
    (h5 : a.cur_file_dict = b.cur_file_dict) (h6 : a.last_line = b.last_line)
    (h7 : a.data_stack = b.data_stack) (h8 : a.data_stacks = b.data_stacks)
    (h9 : a.last_exc_back = b.last_exc_back)
    (h10 : a.last_exc_firstlineno = b.last_exc_firstlineno)
    (h11 : a.last_coroutine = b.last_coroutine) (h12 : a.stopped = b.stopped) : a = b := by
  cases a
  cases b
  simp_all

theorem recordKey_eraseDiag (s1 s2 : TracerState) (k : Key)
    (h : eraseDiag s1 = eraseDiag s2) :
    eraseDiag (recordKey s1 k) = eraseDiag (recordKey s2 k) := by
  obtain ⟨d1, pd1, c1, p1, cf1, ll1, ds1, dss1, eb1, ef1, lc1, st1⟩ := s1
  obtain ⟨d2, pd2, c2, p2, cf2, ll2, ds2, dss2, eb2, ef2, lc2, st2⟩ := s2
  simp only [eraseDiag, TracerState.mk.injEq, and_true, true_and] at h
  obtain ⟨rfl, rfl, rfl, rfl, rfl, rfl, rfl, rfl, rfl, rfl⟩ := h
  cases cf1 <;> simp [recordKey, eraseDiag]

theorem foldl_recordKey_eraseDiag (L : List Int) :
    ∀ (s1 s2 : TracerState), eraseDiag s1 = eraseDiag s2 →
    eraseDiag (L.foldl (fun st n => recordKey st (Key.line n)) s1) =
      eraseDiag (L.foldl (fun st n => recordKey st (Key.line n)) s2) := by
  induction L with
  | nil => intro s1 s2 h; exact h
  | cons n t ih =>
    intro s1 s2 h
    exact ih _ _ (recordKey_eraseDiag s1 s2 (Key.line n) h)

theorem eraseDiag_set_last_line (s1 s2 : TracerState) (v : Int)
    (h : eraseDiag s1 = eraseDiag s2) :
    eraseDiag { s1 with last_line := v } = eraseDiag { s2 with last_line := v } := by
  obtain ⟨d1, pd1, c1, p1, cf1, ll1, ds1, dss1, eb1, ef1, lc1, st1⟩ := s1
  obtain ⟨d2, pd2, c2, p2, cf2, ll2, ds2, dss2, eb2, ef2, lc2, st2⟩ := s2
  simp only [eraseDiag, TracerState.mk.injEq, and_true, true_and] at h ⊢
  obtain ⟨rfl, rfl, rfl, rfl, rfl, rfl, rfl, rfl, rfl, rfl⟩ := h
  simp

/-- The event dispatch never reads `last_exc_firstlineno` or
`last_coroutine`: two states agreeing everywhere else produce the same
dispatch result up to those fields. -/
theorem dispatch_eraseDiag (cfg : Config) (e : Ev) (s1 s2 : TracerState)
    (h : eraseDiag s1 = eraseDiag s2) :
    (dispatch cfg s1 e).map (fun o => (eraseDiag o.state, o.returned_self, o.oracle_calls)) =
    (dispatch cfg s2 e).map (fun o => (eraseDiag o.state, o.returned_self, o.oracle_calls)) := by
  obtain ⟨d1, pd1, c1, p1, cf1, ll1, ds1, dss1, eb1, ef1, lc1, st1⟩ := s1
  obtain ⟨d2, pd2, c2, p2, cf2, ll2, ds2, dss2, eb2, ef2, lc2, st2⟩ := s2
  simp only [eraseDiag, TracerState.mk.injEq, and_true, true_and] at h
  obtain ⟨rfl, rfl, rfl, rfl, rfl, rfl, rfl, rfl, rfl, rfl⟩ := h
  obtain ⟨k, fr, sid⟩ := e
  cases k with
  | exc => simp [dispatch, eraseDiag]
  | call =>
    by_cases hco : cfg.coroutine <;>
      cases hcl : lookupA fr.filename c1 <;>
        simp [dispatch, eraseDiag, setStack, activeStack, hco, hcl] <;>
          split <;> simp [eraseDiag] <;> split <;> simp [eraseDiag]
  | line =>
    cases cf1 with
    | noneC =>
      simp only [dispatch, lineSpan]
      split <;> simp [eraseDiag]
    | listInit =>
      simp only [dispatch, lineSpan]
      split
      · simp [eraseDiag]
      · split
        · simp
        · split <;> simp [eraseDiag]
    | dict nm =>
      simp only [dispatch, lineSpan]
      split
      · simp [eraseDiag]
      · split
        · simp only [Option.map_some']
          refine congrArg some (Prod.ext ?_ rfl)
          exact eraseDiag_set_last_line _ _ _
            (recordKey_eraseDiag _ _ _ (by simp [eraseDiag]))
        · simp only [Option.map_some']
          refine congrArg some (Prod.ext ?_ rfl)
          exact eraseDiag_set_last_line _ _ _
            (foldl_recordKey_eraseDiag _ _ _ (by simp [eraseDiag]))
  | ret =>
    cases cf1 with
    | noneC =>
      by_cases hco : cfg.coroutine <;>
        simp [dispatch, curTruthy, activeStack, setStack, hco, eraseDiag] <;>
          split <;> simp [eraseDiag]
    | listInit =>
      by_cases hco : cfg.coroutine <;>
        simp [dispatch, curTruthy, activeStack, setStack, hco, eraseDiag] <;>
          split <;> simp [eraseDiag]
    | dict nm =>
      by_cases hco : cfg.coroutine <;>
        by_cases hg : (cfg.arcs && !((lookupA nm d1).getD []).isEmpty) = true <;>
          simp [dispatch, curTruthy, recordKey, activeStack, setStack, hco, hg, eraseDiag] <;>
            split <;> simp [eraseDiag]

theorem recordKey_data_eq2 (s1 s2 : TracerState) (k : Key)
    (hcf : s1.cur_file_dict = s2.cur_file_dict) (hd : s1.data = s2.data) :
    (recordKey s1 k).data = (recordKey s2 k).data := by
  cases h : s2.cur_file_dict with
  | dict nm =>
    have h1 : s1.cur_file_dict = CurFile.dict nm := by rw [hcf, h]
    simp [recordKey, h, h1, hd]
  | noneC =>
    have h1 : s1.cur_file_dict = CurFile.noneC := by rw [hcf, h]
    simp [recordKey, h, h1, hd]
  | listInit =>
    have h1 : s1.cur_file_dict = CurFile.listInit := by rw [hcf, h]
    simp [recordKey, h, h1, hd]

theorem step_ret_empty (cfg : Config) (s : TracerState) (fr : Frame) (sid : Nat)
    (hstop : s.stopped = false) (hexc : s.last_exc_back = none)
    (hstack : activeStack cfg s sid = []) :
    step cfg s ⟨EvKind.ret, fr, sid⟩ = none := by
  rw [step_not_stopped cfg _ hstop, doRecovery_of_none cfg _ hexc]
  simp only [Option.some_bind]
  by_cases hco : cfg.coroutine
  · simp only [activeStack, hco, if_true] at hstack
    by_cases hg : (cfg.arcs && curTruthy s) = true
    · simp [dispatch, hg, hco, activeStack, setStack, hstack]
    · have hg' : (cfg.arcs && curTruthy s) = false := by
        cases hgg : cfg.arcs && curTruthy s
        · rfl
        · exact absurd hgg hg
      simp [dispatch, hg', hco, activeStack, setStack, hstack]
  · simp only [activeStack, hco, Bool.false_eq_true, if_false] at hstack
    by_cases hg : (cfg.arcs && curTruthy s) = true
    · simp [dispatch, hg, hco, activeStack, setStack, hstack]
    · have hg' : (cfg.arcs && curTruthy s) = false := by
        cases hgg : cfg.arcs && curTruthy s
        · rfl
        · exact absurd hgg hg
      simp [dispatch, hg', hco, activeStack, setStack, hstack]

theorem dispatch_eraseDiag_state (cfg : Config) (e : Ev) (s1 s2 : TracerState)
    (h : eraseDiag s1 = eraseDiag s2) :
    (dispatch cfg s1 e).map (fun o => eraseDiag o.state) =
    (dispatch cfg s2 e).map (fun o => eraseDiag o.state) := by
  have h2 := dispatch_eraseDiag cfg e s1 s2 h
  have h3 := congrArg (Option.map Prod.fst) h2
  simpa [Option.map_map, Function.comp] using h3

theorem doRecovery_fires (cfg : Config) (s : TracerState) (e : Ev) (b : Nat)
    (hm : s.last_exc_back = some b) (hfr : e.frame.fid = b) :
    doRecovery cfg s e =
      (match activeStack cfg
          (if cfg.arcs && curTruthy s then
            recordKey s (Key.arc s.last_line (-s.last_exc_firstlineno)) else s) e.stream with
      | [] => none
      | (p, c, l) :: t =>
        some { setStack cfg
            (if cfg.arcs && curTruthy s then
              recordKey s (Key.arc s.last_line (-s.last_exc_firstlineno)) else s) e.stream t with
            plugin := p, cur_file_dict := c, last_line := l, last_exc_back := none }) := by
  simp only [doRecovery, hm]
  rw [if_pos hfr]

/-- A skipped return recovered at the next event gives the same result,
up to the two write-only diagnostic fields, as an explicit return event
for the raising frame would have given. -/
theorem exc_recovery_equiv (cfg : Config) (s0 : TracerState) (f : Frame) (e2 : Ev) (b : Nat)
    (hm : s0.last_exc_back = none) (hb : f.back = some b) (hfr : e2.frame.fid = b) :
    (run cfg s0 [⟨EvKind.exc, f, e2.stream⟩, e2]).map eraseDiag =
    (run cfg s0 [⟨EvKind.ret, f, e2.stream⟩, e2]).map eraseDiag := by
  rw [run_two, run_two]
  cases hst : s0.stopped with
  | true => simp [step_stopped cfg s0 _ hst]
  | false =>
    rw [step_exc cfg s0 f e2.stream hst hm]
    set sE : TracerState :=
      { s0 with last_exc_back := f.back, last_exc_firstlineno := f.firstlineno } with hsEdef
    simp only [Option.some_bind]
    rw [step_not_stopped cfg e2 (show sE.stopped = false from hst)]
    rw [doRecovery_fires cfg sE e2 b (show sE.last_exc_back = some b from hb) hfr]
    have c1 : curTruthy sE = curTruthy s0 := rfl
    have c2 : sE.last_line = s0.last_line := rfl
    have c3 : sE.last_exc_firstlineno = f.firstlineno := rfl
    rw [c1, c2, c3]
    by_cases hg : (cfg.arcs && curTruthy s0) = true
    · simp only [hg, if_true]
      have hA1 : activeStack cfg
          (recordKey sE (Key.arc s0.last_line (-f.firstlineno))) e2.stream =
          activeStack cfg s0 e2.stream :=
        activeStack_congr cfg e2.stream (by simp) (by simp)
      rw [hA1]
      cases hS : activeStack cfg s0 e2.stream with
      | nil =>
        rw [step_ret_empty cfg s0 f e2.stream hst hm hS]
        simp
      | cons hd t =>
        obtain ⟨p, c, l⟩ := hd
        rw [step_ret_any cfg s0 f e2.stream p c l t hst hm hS]
        simp only [Option.some_bind, Option.none_bind]
        have hpB1 : (afterPop cfg
            (if cfg.arcs && curTruthy s0 then
              recordKey s0 (Key.arc s0.last_line (-f.firstlineno)) else s0)
            e2.stream p c l t).stopped = false := by simp [hg, hst]
        have hpB2 : (afterPop cfg
            (if cfg.arcs && curTruthy s0 then
              recordKey s0 (Key.arc s0.last_line (-f.firstlineno)) else s0)
            e2.stream p c l t).last_exc_back = none := by simp [hg, hm]
        rw [step_not_stopped cfg e2 hpB1, doRecovery_of_none cfg e2 hpB2]
        simp only [Option.some_bind, Option.map_map]
        have hd2 : (recordKey sE (Key.arc s0.last_line (-f.firstlineno))).data =
            (recordKey s0 (Key.arc s0.last_line (-f.firstlineno))).data :=
          recordKey_data_eq2 _ _ _ rfl rfl
        have hAB : eraseDiag { setStack cfg
              (recordKey sE (Key.arc s0.last_line (-f.firstlineno))) e2.stream t with
              plugin := p, cur_file_dict := c, last_line := l, last_exc_back := none } =
            eraseDiag (afterPop cfg
              (if cfg.arcs && curTruthy s0 then
                recordKey s0 (Key.arc s0.last_line (-f.firstlineno)) else s0)
              e2.stream p c l t) := by
          by_cases hco : cfg.coroutine <;>
            ext <;> simp [eraseDiag, hg, hco, setStack, afterPop, hd2, hm]
        have hfin := dispatch_eraseDiag_state cfg e2 _ _ hAB
        simpa [Function.comp] using hfin
    · have hg' : (cfg.arcs && curTruthy s0) = false := by
        cases hgg : cfg.arcs && curTruthy s0
        · rfl
        · exact absurd hgg hg
      simp only [hg', Bool.false_eq_true, if_false]
      have hA1 : activeStack cfg sE e2.stream = activeStack cfg s0 e2.stream :=
        activeStack_congr cfg e2.stream (by simp) (by simp)
      rw [hA1]
      cases hS : activeStack cfg s0 e2.stream with
      | nil =>
        rw [step_ret_empty cfg s0 f e2.stream hst hm hS]
        simp
      | cons hd t =>
        obtain ⟨p, c, l⟩ := hd
        rw [step_ret_any cfg s0 f e2.stream p c l t hst hm hS]
        simp only [Option.some_bind, Option.none_bind]
        have hpB1 : (afterPop cfg
            (if cfg.arcs && curTruthy s0 then
              recordKey s0 (Key.arc s0.last_line (-f.firstlineno)) else s0)
            e2.stream p c l t).stopped = false := by simp [hg', hst]
        have hpB2 : (afterPop cfg
            (if cfg.arcs && curTruthy s0 then
              recordKey s0 (Key.arc s0.last_line (-f.firstlineno)) else s0)
            e2.stream p c l t).last_exc_back = none := by simp [hg', hm]
        rw [step_not_stopped cfg e2 hpB1, doRecovery_of_none cfg e2 hpB2]
        simp only [Option.some_bind, Option.map_map]
        have hAB : eraseDiag { setStack cfg sE e2.stream t with
              plugin := p, cur_file_dict := c, last_line := l, last_exc_back := none } =
            eraseDiag (afterPop cfg
              (if cfg.arcs && curTruthy s0 then
                recordKey s0 (Key.arc s0.last_line (-f.firstlineno)) else s0)
              e2.stream p c l t) := by
          by_cases hco : cfg.coroutine <;>
            ext <;> simp [eraseDiag, hg', hco, setStack, afterPop, hm]
        have hfin := dispatch_eraseDiag_state cfg e2 _ _ hAB
        simpa [Function.comp] using hfin

/-
The trace decision cache: each raw identifier reaches the oracle at most
once per session.
-/

theorem doRecovery_cache (cfg : Config) (s : TracerState) (e : Ev) (s' : TracerState)
    (h : doRecovery cfg s e = some s') :
    s'.should_trace_cache = s.should_trace_cache := by
  simp only [doRecovery] at h
  split at h
  · cases h
    rfl
  · split at h
    · split at h
      · cases h
      · cases h
        simp only [setStack_cache]
        split <;> simp
    · cases h
      rfl

theorem doRecovery_stopped (cfg : Config) (s : TracerState) (e : Ev) (s' : TracerState)
    (h : doRecovery cfg s e = some s') : s'.stopped = s.stopped := by
  simp only [doRecovery] at h
  split at h
  · cases h
    rfl
  · split at h
    · split at h
      · cases h
      · cases h
        simp only [setStack_stopped]
        split <;> simp
    · cases h
      rfl

theorem foldl_recordKey_cache (L : List Int) (s : TracerState) :
    (L.foldl (fun st n => recordKey st (Key.line n)) s).should_trace_cache =
      s.should_trace_cache := by
  induction L generalizing s with
  | nil => rfl
  | cons n t ih => simp [List.foldl_cons, ih]

theorem dispatch_cache_spec (cfg : Config) (s : TracerState) (e : Ev) (o : StepOut)
    (h : dispatch cfg s e = some o) :
    o.oracle_calls =
      (if e.kind = EvKind.call ∧ lookupA e.frame.filename s.should_trace_cache = none
        then [e.frame.filename] else []) ∧
    o.state.should_trace_cache.map Prod.fst =
      s.should_trace_cache.map Prod.fst ++ o.oracle_calls := by
  obtain ⟨k, fr, sid⟩ := e
  cases k with
  | call =>
    by_cases hco : cfg.coroutine <;>
      cases hcl : lookupA fr.filename s.should_trace_cache <;>
        simp only [dispatch, setStack, activeStack, hco, Bool.false_eq_true, if_true,
          if_false, hcl] at h <;>
        cases h <;>
        refine ⟨by simp [hcl], ?_⟩ <;>
        (repeat' split) <;>
        simp [hcl, keys_updateA_new, Bool.false_eq_true]
  | line =>
    simp only [dispatch] at h
    split at h
    · cases h
      simp
    · split at h
      · cases h
        simp
      · split at h
        · cases h
        · split at h
          · cases h
            simp
          · cases h
      · cases h
        constructor
        · simp
        · split <;> simp [foldl_recordKey_cache]
  | ret =>
    simp only [dispatch] at h
    split at h
    · cases h
    · cases h
      refine ⟨by simp, ?_⟩
      simp only [setStack_cache]
      (repeat' split) <;> simp
  | exc =>
    simp only [dispatch] at h
    cases h
    simp

theorem step_cache_spec (cfg : Config) (s : TracerState) (e : Ev) (o : StepOut)
    (h : step cfg s e = some o) :
    o.oracle_calls =
      (if s.stopped = false ∧ e.kind = EvKind.call ∧
          lookupA e.frame.filename s.should_trace_cache = none
        then [e.frame.filename] else []) ∧
    o.state.should_trace_cache.map Prod.fst =
      s.should_trace_cache.map Prod.fst ++ o.oracle_calls := by
  cases hst : s.stopped with
  | true =>
    rw [step_stopped cfg s e hst] at h
    cases h
    simp [hst]
  | false =>
    rw [step_not_stopped cfg e hst] at h
    cases hr : doRecovery cfg s e with
    | none => rw [hr] at h; cases h
    | some s1 =>
      rw [hr] at h
      simp only [Option.some_bind] at h
      have hc := doRecovery_cache cfg s e s1 hr
      obtain ⟨h1, h2⟩ := dispatch_cache_spec cfg s1 e o h
      rw [hc] at h1 h2
      refine ⟨?_, h2⟩
      rw [h1]
      simp [hst]

/-- Over any successful run, the raw identifiers passed to the oracle are
exactly the not-yet-cached filenames of processed call events, each
appearing once; the cache keys grow by exactly those identifiers. -/
theorem runCalls_spec (cfg : Config) :
    ∀ (evs : List Ev) (s s' : TracerState), run cfg s evs = some s' →
    (runCalls cfg s evs).Nodup ∧
    (∀ x, x ∈ runCalls cfg s evs ↔
      x ∈ runFiles cfg s evs ∧ lookupA x s.should_trace_cache = none) ∧
    s'.should_trace_cache.map Prod.fst =
      s.should_trace_cache.map Prod.fst ++ runCalls cfg s evs := by
  intro evs
  induction evs with
  | nil =>
    intro s s' hrun
    simp only [run] at hrun
    cases hrun
    simp [runCalls, runFiles]
  | cons e evs ih =>
    intro s s' hrun
    simp only [run] at hrun
    cases hstep : step cfg s e with
    | none => rw [hstep] at hrun; cases hrun
    | some o =>
      rw [hstep] at hrun
      obtain ⟨ih1, ih2, ih3⟩ := ih o.state s' hrun
      obtain ⟨hc1, hc2⟩ := step_cache_spec cfg s e o hstep
      have hkeys : o.state.should_trace_cache.map Prod.fst =
          s.should_trace_cache.map Prod.fst ++ o.oracle_calls := hc2
      have hcallsub : ∀ x ∈ o.oracle_calls,
          x = e.frame.filename ∧ s.stopped = false ∧ e.kind = EvKind.call ∧
          lookupA e.frame.filename s.should_trace_cache = none := by
        intro x hx
        rw [hc1] at hx
        split at hx
        · rename_i hcond
          simp at hx
          exact ⟨hx, hcond⟩
        · simp at hx
      have hruncalls : runCalls cfg s (e :: evs) =
          o.oracle_calls ++ runCalls cfg o.state evs := by
        simp [runCalls, hstep]
      have hrunfiles : runFiles cfg s (e :: evs) =
          (if s.stopped = false ∧ e.kind = EvKind.call then [e.frame.filename] else []) ++
            runFiles cfg o.state evs := by
        simp [runFiles, hstep]
      refine ⟨?_, ?_, ?_⟩
      · rw [hruncalls]
        rw [List.nodup_append]
        refine ⟨?_, ih1, ?_⟩
        · rw [hc1]
          split <;> simp
        · intro x hx1 hx2
          obtain ⟨hxe, -, -, -⟩ := hcallsub x hx1
          have hnone := ((ih2 x).mp hx2).2
          rw [lookupA_eq_none_iff] at hnone
          apply hnone
          rw [hkeys]
          refine List.mem_append.mpr (Or.inr ?_)
          rw [hc1]
          rw [hc1] at hx1
          exact hx1
      · intro x
        rw [hruncalls, hrunfiles]
        constructor
        · intro hx
          rcases List.mem_append.mp hx with hx1 | hx1
          · obtain ⟨hxe, hs, hk, hnone⟩ := hcallsub x hx1
            subst hxe
            exact ⟨List.mem_append.mpr (Or.inl (by simp [hs, hk])), hnone⟩
          · obtain ⟨hf, hnone1⟩ := (ih2 x).mp hx1
            refine ⟨List.mem_append.mpr (Or.inr hf), ?_⟩
            rw [lookupA_eq_none_iff] at hnone1 ⊢
            intro hmem
            apply hnone1
            rw [hkeys]
            exact List.mem_append.mpr (Or.inl hmem)
        · rintro ⟨hf, hnone⟩
          rcases List.mem_append.mp hf with hf1 | hf1
          · have hcond : s.stopped = false ∧ e.kind = EvKind.call := by
              by_cases hcc : s.stopped = false ∧ e.kind = EvKind.call
              · exact hcc
              · simp [hcc] at hf1
            have hxe : x = e.frame.filename := by
              simp [hcond] at hf1
              exact hf1
            subst hxe
            refine List.mem_append.mpr (Or.inl ?_)
            rw [hc1]
            simp [hcond, hnone]
          · by_cases hxin : x ∈ o.oracle_calls
            · exact List.mem_append.mpr (Or.inl hxin)
            · refine List.mem_append.mpr (Or.inr ?_)
              refine (ih2 x).mpr ⟨hf1, ?_⟩
              rw [lookupA_eq_none_iff] at hnone ⊢
              rw [hkeys]
              intro hmem
              rcases List.mem_append.mp hmem with hm | hm
              · exact hnone hm
              · exact hxin hm
      · rw [hruncalls, ih3, hkeys, List.append_assoc]

/-
Interleavings of complete call trees from two streams.
-/

@[simp] theorem afterNode_stopped (cfg : Config) (s : TracerState) (F : String) (sid : Nat)
    (b : CBody) : (afterNode cfg s F sid b).stopped = s.stopped := rfl

@[simp] theorem afterNode_last_exc_back (cfg : Config) (s : TracerState) (F : String)
    (sid : Nat) (b : CBody) : (afterNode cfg s F sid b).last_exc_back = s.last_exc_back := rfl

theorem lookup_afterNode_cache_self (cfg : Config) (s : TracerState) (F : String) (sid : Nat)
    (b : CBody)
    (hpre : lookupA F s.should_trace_cache = none ∨
      lookupA F s.should_trace_cache = some (dispSimple F)) :
    lookupA F (afterNode cfg s F sid b).should_trace_cache = some (dispSimple F) := by
  rcases hpre with hc | hc <;> simp [afterNode, cacheAdd_cache, hc, lookupA_updateA_self]

theorem lookup_afterNode_cache_other (cfg : Config) (s : TracerState) (F : String) (sid : Nat)
    (b : CBody) (G : String) (hne : G ≠ F) :
    lookupA G (afterNode cfg s F sid b).should_trace_cache =
      lookupA G s.should_trace_cache := by
  by_cases hc : (lookupA F s.should_trace_cache).isSome <;>
    simp [afterNode, cacheAdd_cache, hc, lookupA_updateA_ne _ _ hne]

theorem lookup_afterNode_data_self (cfg : Config) (s : TracerState) (F : String) (sid : Nat)
    (b : CBody) :
    lookupA F (afterNode cfg s F sid b).data =
      some (insLines ((lookupA F s.data).getD []) (bodyLines b)) := by
  cases hd : lookupA F s.data with
  | some d => simp [afterNode, ensureData_data, hd, lookupA_modifyA_self]
  | none =>
    simp [afterNode, ensureData_data, hd, lookupA_modifyA_self, lookupA_append_missing _ hd]

theorem lookup_afterNode_data_other (cfg : Config) (s : TracerState) (F : String) (sid : Nat)
    (b : CBody) (G : String) (hne : G ≠ F) :
    lookupA G (afterNode cfg s F sid b).data = lookupA G s.data := by
  cases hd : lookupA F s.data <;>
    simp [afterNode, ensureData_data, hd, lookupA_modifyA_ne _ _ hne,
      lookupA_append_single_ne _ _ hne]

/-- Serialization of a list of complete call trees, each tagged with the
stream that runs it: `true` trees run in stream 1 / unit `F1`, `false`
trees in stream 2 / unit `F2`. -/
def serTops (F1 F2 : String) (fl1 fl2 : Int) (sid1 sid2 : Nat) :
    List (Bool × CBody) → List Ev
  | [] => []
  | (tag, b) :: rest =>
    (if tag then serTree F1 fl1 sid1 (CTree.node b) else serTree F2 fl2 sid2 (CTree.node b)) ++
      serTops F1 F2 fl1 fl2 sid1 sid2 rest

/-- States from which whole-tree processing of either unit is well
behaved. -/
def C9Inv (cfg : Config) (F1 F2 : String) (s : TracerState) : Prop :=
  s.stopped = false ∧ s.last_exc_back = none ∧
  (lookupA F1 s.should_trace_cache = none ∨
    lookupA F1 s.should_trace_cache = some (dispSimple F1)) ∧
  (lookupA F2 s.should_trace_cache = none ∨
    lookupA F2 s.should_trace_cache = some (dispSimple F2))

theorem C9Inv_afterNode (cfg : Config) (F1 F2 : String) (hne : F1 ≠ F2) (s : TracerState)
    (hInv : C9Inv cfg F1 F2 s) (sid : Nat) (b : CBody) (F : String)
    (hF : F = F1 ∨ F = F2) : C9Inv cfg F1 F2 (afterNode cfg s F sid b) := by
  obtain ⟨h1, h2, h3, h4⟩ := hInv
  rcases hF with rfl | rfl
  · exact ⟨by simp [h1], by simp [h2],
      Or.inr (lookup_afterNode_cache_self cfg s F sid b h3),
      by rw [lookup_afterNode_cache_other cfg s F sid b F2 (fun h => hne h.symm)]; exact h4⟩
  · exact ⟨by simp [h1], by simp [h2],
      by rw [lookup_afterNode_cache_other cfg s F sid b F1 hne]; exact h3,
      Or.inr (lookup_afterNode_cache_self cfg s F sid b h4)⟩

/-- Whole-tree interleaving: for the stream selected by `side`, the
interleaved run records into its unit exactly what the solo run of that
stream's trees records. -/
theorem interleave_side (cfg : Config) (F1 F2 : String) (fl1 fl2 : Int) (sid1 sid2 : Nat)
    (harcs : cfg.arcs = false)
    (hor1 : ∀ fr, cfg.should_trace F1 fr = dispSimple F1)
    (hor2 : ∀ fr, cfg.should_trace F2 fr = dispSimple F2)
    (hne : F1 ≠ F2) (side : Bool) :
    ∀ (l : List (Bool × CBody)) (s t : TracerState),
    C9Inv cfg F1 F2 s → C9Inv cfg F1 F2 t →
    (∀ p ∈ l, ∀ n ∈ bodyLines p.2, n ≠ -1) →
    lookupA (if side then F1 else F2) s.data = lookupA (if side then F1 else F2) t.data →
    ∃ s' t', run cfg s (serTops F1 F2 fl1 fl2 sid1 sid2 l) = some s' ∧
      run cfg t (serTops F1 F2 fl1 fl2 sid1 sid2 (l.filter (fun p => p.1 == side))) = some t' ∧
      lookupA (if side then F1 else F2) s'.data =
        lookupA (if side then F1 else F2) t'.data := by
  intro l
  induction l with
  | nil =>
    intro s t hs ht hlines hdata
    exact ⟨s, t, rfl, rfl, hdata⟩
  | cons p rest ih =>
    intro s t hs ht hlines hdata
    obtain ⟨tag, b⟩ := p
    have hlb : ∀ n ∈ bodyLines b, n ≠ -1 := hlines (tag, b) (by simp)
    have hlrest : ∀ q ∈ rest, ∀ n ∈ bodyLines q.2, n ≠ -1 := by
      intro q hq
      exact hlines q (by simp [hq])
    obtain ⟨hs1, hs2, hs3, hs4⟩ := hs
    have hnodeS : run cfg s
        (serTree (if tag then F1 else F2) (if tag then fl1 else fl2)
          (if tag then sid1 else sid2) (CTree.node b)) =
        some (afterNode cfg s (if tag then F1 else F2) (if tag then sid1 else sid2) b) := by
      cases tag
      · exact runNode cfg s F2 fl2 sid2 b harcs hor2 hs1 hs2 hs4 hlb
      · exact runNode cfg s F1 fl1 sid1 b harcs hor1 hs1 hs2 hs3 hlb
    have hInvS : C9Inv cfg F1 F2
        (afterNode cfg s (if tag then F1 else F2) (if tag then sid1 else sid2) b) := by
      refine C9Inv_afterNode cfg F1 F2 hne s ⟨hs1, hs2, hs3, hs4⟩ _ b _ ?_
      cases tag
      · exact Or.inr rfl
      · exact Or.inl rfl
    have hser : serTops F1 F2 fl1 fl2 sid1 sid2 ((tag, b) :: rest) =
        (if tag then serTree F1 fl1 sid1 (CTree.node b)
          else serTree F2 fl2 sid2 (CTree.node b)) ++
          serTops F1 F2 fl1 fl2 sid1 sid2 rest := rfl
    by_cases htag : tag = side
    · subst htag
      obtain ⟨ht1, ht2, ht3, ht4⟩ := ht
      have hnodeT : run cfg t
          (serTree (if tag then F1 else F2) (if tag then fl1 else fl2)
            (if tag then sid1 else sid2) (CTree.node b)) =
          some (afterNode cfg t (if tag then F1 else F2) (if tag then sid1 else sid2) b) := by
        cases tag
        · exact runNode cfg t F2 fl2 sid2 b harcs hor2 ht1 ht2 ht4 hlb
        · exact runNode cfg t F1 fl1 sid1 b harcs hor1 ht1 ht2 ht3 hlb
      have hInvT : C9Inv cfg F1 F2
          (afterNode cfg t (if tag then F1 else F2) (if tag then sid1 else sid2) b) := by
        refine C9Inv_afterNode cfg F1 F2 hne t ⟨ht1, ht2, ht3, ht4⟩ _ b _ ?_
        cases tag
        · exact Or.inr rfl
        · exact Or.inl rfl
      have hdata2 : lookupA (if tag then F1 else F2)
          (afterNode cfg s (if tag then F1 else F2) (if tag then sid1 else sid2) b).data =
          lookupA (if tag then F1 else F2)
          (afterNode cfg t (if tag then F1 else F2) (if tag then sid1 else sid2) b).data := by
        rw [lookup_afterNode_data_self, lookup_afterNode_data_self, hdata]
      obtain ⟨s', t', hrs, hrt, hd⟩ := ih _ _ hInvS hInvT hlrest hdata2
      refine ⟨s', t', ?_, ?_, hd⟩
      · rw [hser, run_append]
        cases tag <;>
          simp only [if_true, if_false, Bool.false_eq_true] at hnodeS hrs ⊢ <;>
          rw [hnodeS] <;> simpa using hrs
      · have hfil : ((tag, b) :: rest).filter (fun p => p.1 == tag) =
            (tag, b) :: rest.filter (fun p => p.1 == tag) := by
          simp [List.filter_cons]
        have hser2 : serTops F1 F2 fl1 fl2 sid1 sid2
            ((tag, b) :: rest.filter (fun p => p.1 == tag)) =
            (if tag then serTree F1 fl1 sid1 (CTree.node b)
              else serTree F2 fl2 sid2 (CTree.node b)) ++
              serTops F1 F2 fl1 fl2 sid1 sid2 (rest.filter (fun p => p.1 == tag)) := rfl
        rw [hfil, hser2, run_append]
        cases tag <;>
          simp only [if_true, if_false, Bool.false_eq_true] at hnodeT hrt ⊢ <;>
          rw [hnodeT] <;> simpa using hrt
    · have hbeq : (tag == side) = false := by
        cases tag <;> cases side <;> first | rfl | exact absurd rfl htag
      have hGF : (if side then F1 else F2) ≠ (if tag then F1 else F2) := by
        cases side <;> cases tag
        · exact absurd rfl htag
        · exact fun h => hne h.symm
        · exact hne
        · exact absurd rfl htag
      have hdata2 : lookupA (if side then F1 else F2)
          (afterNode cfg s (if tag then F1 else F2) (if tag then sid1 else sid2) b).data =
          lookupA (if side then F1 else F2) t.data := by
        rw [lookup_afterNode_data_other cfg s _ _ b _ hGF]
        exact hdata
      obtain ⟨s', t', hrs, hrt, hd⟩ := ih _ t hInvS ht hlrest hdata2
      refine ⟨s', t', ?_, ?_, hd⟩
      · rw [hser, run_append]
        cases tag <;>
          simp only [if_true, if_false, Bool.false_eq_true] at hnodeS hrs ⊢ <;>
          rw [hnodeS] <;> simpa using hrs
      · have hfil : ((tag, b) :: rest).filter (fun p => p.1 == side) =
            rest.filter (fun p => p.1 == side) := by
          simp [List.filter_cons, hbeq]
        rw [hfil]
        exact hrt

/-
Concrete configurations and inputs used by witnesses and
counterexamples.
-/

/-- A collector configuration that plainly traces every unit, line mode,
no stream resolver, no plugins. -/
def cfgLineW : Config where
  arcs := false
  coroutine := false
  should_trace := fun fn _ => dispSimple fn
  plugins := fun _ => ⟨none, fun fr => (fr.lineno, fr.lineno)⟩
  check_include := fun _ => true

/-- The same collector configuration in arc mode. -/
def cfgArcW : Config := { cfgLineW with arcs := true }

/-- The same collector configuration with a stream resolver configured. -/
def cfgCoW : Config := { cfgLineW with coroutine := true }

/-- A collector configuration whose oracle declines every unit. -/
def cfgNoTraceW : Config :=
  { cfgLineW with should_trace := fun _ _ => ⟨false, "", none⟩ }

/-- A body with a repeated line and a nested call. -/
def bW : CBody :=
  CBody.cons (CTree.cline 10)
    (CBody.cons (CTree.node (CBody.cons (CTree.cline 11) CBody.nil))
      (CBody.cons (CTree.cline 10) CBody.nil))

/-- A state inside a traced scope of unit `f` whose dict already holds
line 3. -/
def sC2 : TracerState :=
  { initState with data := [("f", [Key.line 3])], cur_file_dict := CurFile.dict "f", last_line := 3, data_stack := [(none, CurFile.listInit, 0)] }

/-- A state inside a traced scope of unit `g`, one call deep, arc mode
history. -/
def sC3 : TracerState :=
  { initState with data := [("g", [Key.arc (-1) 4])], cur_file_dict := CurFile.dict "g", last_line := 4, data_stack := [(none, CurFile.listInit, 0)] }

/-- The frame of `g` that raises; its parent is frame 0. -/
def fC3 : Frame := ⟨7, some 0, "g", 3, 4⟩

/-- The next event after the skipped return: a call observed in the
parent frame 0. -/
def eC3 : Ev := ⟨EvKind.call, ⟨0, none, "h", 1, 0⟩, 0⟩

/-- A state inside an untraced scope. -/
def sC4 : TracerState :=
  { initState with cur_file_dict := CurFile.noneC, last_line := -1 }

/-- A stopped tracer state. -/
def sStopped : TracerState := { initState with stopped := true }

/-- Body lines 10, 11, 12 of the concrete scenario function. -/
def bC8 : CBody :=
  CBody.cons (CTree.cline 10)
    (CBody.cons (CTree.cline 11) (CBody.cons (CTree.cline 12) CBody.nil))

/-- One complete call of the scenario function `f` with body lines
10-12 and scope first line 10. -/
def evsC8 : List Ev := serTree "f" 10 0 (CTree.node bC8)

/-- Interleaved events of two streams where stream 1 is mid-function
(between its call and its return) while stream 2 runs: stream 1 is
call A, line 10, line 11, return; stream 2 is call B, line 20, return. -/
def evs9all : List Ev :=
  [callEv "A" 10 1, lineEv "A" 10 10 1, callEv "B" 20 2, lineEv "B" 20 20 2,
   lineEv "A" 10 11 1, retEv "A" 10 1, retEv "B" 20 2]

/-- Stream 1 of the interleaving above, delivered alone. -/
def evs9one : List Ev :=
  [callEv "A" 10 1, lineEv "A" 10 10 1, lineEv "A" 10 11 1, retEv "A" 10 1]

/-- Events consulting the oracle: unit `a` entered twice, unit `b`
once. -/
def evsC6 : List Ev :=
  [callEv "a" 1 0, retEv "a" 1 0, callEv "a" 1 0, retEv "a" 1 0,
   callEv "b" 1 0, retEv "b" 1 0]

/-
The claims.
-/

/-- Claim C1: for every well-paired call/line/return event sequence
confined to one plainly traced unit, in line mode the final recorded set
for that unit is exactly the set of distinct executed line numbers,
independent of repetition; and recording an already-present line or arc
key leaves the dict unchanged (set semantics). -/
theorem C1_line_mode_set_semantics (cfg : Config) (F : String) (fl : Int) (sid : Nat)
    (b : CBody) (harcs : cfg.arcs = false)
    (horacle : ∀ fr, cfg.should_trace F fr = dispSimple F)
    (hlines : ∀ n ∈ bodyLines b, n ≠ -1) :
    (∃ s', run cfg initState (serTree F fl sid (CTree.node b)) = some s' ∧
      ∃ d, lookupA F s'.data = some d ∧
        ∀ k, k ∈ d ↔ ∃ n ∈ bodyLines b, k = Key.line n) ∧
    ∀ (d : FileDict) (k : Key), k ∈ d → d.insertKey k = d := by
  constructor
  · refine ⟨afterNode cfg initState F sid b,
      runNode cfg initState F fl sid b harcs horacle rfl rfl (Or.inl rfl) hlines,
      insLines [] (bodyLines b), ?_, ?_⟩
    · have h := lookup_afterNode_data_self cfg initState F sid b
      simpa [initState, lookupA] using h
    · intro k
      rw [mem_insLines]
      simp
  · intro d k hk
    exact insertKey_of_mem hk

/-- Witness for C1 at a concrete body with a repeated line and a nested
call. -/
theorem C1_witness :
    (∃ s', run cfgLineW initState (serTree "f" 10 0 (CTree.node bW)) = some s' ∧
      ∃ d, lookupA "f" s'.data = some d ∧
        ∀ k, k ∈ d ↔ ∃ n ∈ bodyLines bW, k = Key.line n) ∧
    ∀ (d : FileDict) (k : Key), k ∈ d → d.insertKey k = d :=
  C1_line_mode_set_semantics cfgLineW "f" 10 0 bW rfl (fun _ => rfl) (by decide)

/-- Counterexample to claim C2 as stated: in arc mode, a call into a
traced unit makes the record active (`cur_file_dict` is the unit's
dict), yet a return while that dict is still empty records no
terminating arc at all — the final dict for the unit is empty, not
`{(-1, -10)}`.  The guard `if self.arcs and self.cur_file_dict:` is
truthiness, and an empty dict is falsy. -/
theorem C2_counterexample :
    (run cfgArcW initState [callEv "f" 10 0]).map (fun s => s.cur_file_dict) =
      some (CurFile.dict "f") ∧
    (run cfgArcW initState [callEv "f" 10 0, retEv "f" 10 0]).map
      (fun s => lookupA "f" s.data) = some (some ([] : FileDict)) := by
  exact ⟨rfl, rfl⟩

/-- Claim C2 as amended: in arc mode a return records the terminating arc
`(last_line, -first_line_of_scope)` if and only if the active unit record
is nonempty; with an empty active record the data store is left
unchanged.  In both cases the caller's context is restored. -/
theorem C2_exit_arc_amended (cfg : Config) (s : TracerState) (fr : Frame) (sid : Nat)
    (F : String) (d : FileDict) (p : Option String) (c : CurFile) (l : Int) (t : List Ctx)
    (harcs : cfg.arcs = true) (hstop : s.stopped = false) (hexc : s.last_exc_back = none)
    (hcfd : s.cur_file_dict = CurFile.dict F) (hd : lookupA F s.data = some d)
    (hstack : activeStack cfg s sid = (p, c, l) :: t) :
    ∃ out, step cfg s ⟨EvKind.ret, fr, sid⟩ = some out ∧
      out.state.data = (if d.isEmpty then s.data
        else modifyA F (fun d0 => d0.insertKey (Key.arc s.last_line (-fr.firstlineno))) s.data) ∧
      out.state.plugin = p ∧ out.state.cur_file_dict = c ∧ out.state.last_line = l ∧
      out.state.data_stack = t := by
  refine ⟨_, step_ret_any cfg s fr sid p c l t hstop hexc hstack, ?_, ?_, ?_, ?_, ?_⟩
  · have hct : curTruthy s = !d.isEmpty := by simp [curTruthy, hcfd, hd]
    by_cases hde : d.isEmpty
    · simp [harcs, hct, hde]
    · simp [harcs, hct, hde, recordKey, hcfd]
  · simp
  · simp
  · simp
  · simp

/-- Witness for the amended C2 at a state whose record already holds
line 3. -/
theorem C2_witness :
    ∃ out, step cfgArcW sC2 ⟨EvKind.ret, ⟨0, none, "f", 10, 0⟩, 0⟩ = some out ∧
      out.state.data = (if ([Key.line 3] : FileDict).isEmpty then sC2.data
        else modifyA "f"
          (fun d0 => d0.insertKey (Key.arc sC2.last_line (-(10 : Int)))) sC2.data) ∧
      out.state.plugin = none ∧ out.state.cur_file_dict = CurFile.listInit ∧
      out.state.last_line = 0 ∧ out.state.data_stack = [] :=
  C2_exit_arc_amended cfgArcW sC2 ⟨0, none, "f", 10, 0⟩ 0 "f" [Key.line 3] none
    CurFile.listInit 0 [] rfl rfl rfl rfl (by decide) (by decide)

/-- Claim C3: an exception event remembers the raising frame; when the
next event comes from the raiser's caller with no intervening return, the
dispatcher replays the skipped return: the two-event run equals the run
in which an explicit return event for the raising frame was delivered,
up to the two write-only diagnostic fields (`last_exc_firstlineno`,
`last_coroutine`) that the dispatcher never reads; and the recovery check
clears the pending marker in every branch, whether or not the frames
matched. -/
theorem C3_exception_skip_recovery (cfg : Config) (s0 : TracerState) (f : Frame) (e2 : Ev)
    (b : Nat) (hm : s0.last_exc_back = none) (hb : f.back = some b)
    (hfr : e2.frame.fid = b) :
    (run cfg s0 [⟨EvKind.exc, f, e2.stream⟩, e2]).map eraseDiag =
      (run cfg s0 [⟨EvKind.ret, f, e2.stream⟩, e2]).map eraseDiag ∧
    ∀ (cfg2 : Config) (s : TracerState) (e : Ev) (s' : TracerState),
      doRecovery cfg2 s e = some s' → s'.last_exc_back = none :=
  ⟨exc_recovery_equiv cfg s0 f e2 b hm hb hfr,
   fun cfg2 s e s' h => doRecovery_clears cfg2 s e s' h⟩

/-- Witness for C3 in arc mode, one call deep, next event a call in the
parent frame. -/
theorem C3_witness :
    (run cfgArcW sC3 [⟨EvKind.exc, fC3, eC3.stream⟩, eC3]).map eraseDiag =
      (run cfgArcW sC3 [⟨EvKind.ret, fC3, eC3.stream⟩, eC3]).map eraseDiag ∧
    ∀ (cfg2 : Config) (s : TracerState) (e : Ev) (s' : TracerState),
      doRecovery cfg2 s e = some s' → s'.last_exc_back = none :=
  C3_exception_skip_recovery cfgArcW sC3 fC3 eC3 0 rfl rfl rfl

/-- Counterexample to claim C4 as stated: a line event in an untraced
scope (`cur_file_dict` is `None`) is not a complete no-op — after the
call, `last_line` is `-1`, and the line event sets it to the executed
line 7, because the assignment `self.last_line = lineno_to` sits outside
the `is not None` check. -/
theorem C4_counterexample :
    (run cfgNoTraceW initState [callEv "X" 1 0]).map
      (fun s => (s.cur_file_dict, s.last_line)) = some (CurFile.noneC, -1) ∧
    (run cfgNoTraceW initState [callEv "X" 1 0, lineEv "X" 1 7 0]).map
      (fun s => s.last_line) = some 7 := by
  exact ⟨rfl, rfl⟩

/-- Claim C4 as amended: a line event processed with no active unit
record leaves the data store and the rest of the state unchanged, except
that `last_line` is still set to the end of the statement's span (unless
the span start is the sentinel -1, in which case nothing changes). -/
theorem C4_untraced_line_amended (cfg : Config) (s : TracerState) (e : Ev)
    (hk : e.kind = EvKind.line) (hstop : s.stopped = false) (hexc : s.last_exc_back = none)
    (hcfd : s.cur_file_dict = CurFile.noneC) :
    step cfg s e = some ⟨(if (lineSpan cfg s e).1 = -1 then s
      else { s with last_line := (lineSpan cfg s e).2 }), true, []⟩ := by
  obtain ⟨k, fr, sid⟩ := e
  have hk2 : k = EvKind.line := hk
  subst hk2
  rw [step_not_stopped cfg _ hstop, doRecovery_of_none cfg _ hexc]
  simp only [Option.some_bind]
  by_cases hlf : (lineSpan cfg s ⟨EvKind.line, fr, sid⟩).1 = -1
  · simp [dispatch, hlf]
  · simp [dispatch, hlf, hcfd]

/-- Witness for the amended C4 at a concrete untraced-scope state. -/
theorem C4_witness :
    step cfgNoTraceW sC4 (lineEv "X" 1 7 0) =
      some ⟨(if (lineSpan cfgNoTraceW sC4 (lineEv "X" 1 7 0)).1 = -1 then sC4
        else { sC4 with last_line := (lineSpan cfgNoTraceW sC4 (lineEv "X" 1 7 0)).2 }),
        true, []⟩ :=
  C4_untraced_line_amended cfgNoTraceW sC4 (lineEv "X" 1 7 0) rfl rfl rfl rfl

/-- Counterexample to claim C5 as stated: after the session is stopped
the handler does not return itself — `if self.stopped: return` returns
`None`. -/
theorem C5_counterexample :
    (step cfgLineW sStopped (lineEv "f" 10 3 0)).map StepOut.returned_self =
      some false := rfl

/-- Claim C5 as amended: for every event processed while the tracer is
not stopped, the handler returns itself — the same stable identity that
`start()` both installs as the global hook and returns; once stopped, it
returns `None`. -/
theorem C5_returned_hook_amended :
    (∀ (cfg : Config) (s : TracerState) (e : Ev) (o : StepOut),
      step cfg s e = some o → o.returned_self = !s.stopped) ∧
    (∀ (selfHook : Nat) (threadingOn : Bool) (curThread : Nat) (thread : Option Nat),
      (startTracer selfHook threadingOn curThread thread).2.1 = ⟨some selfHook⟩ ∧
      (startTracer selfHook threadingOn curThread thread).2.2 = selfHook) :=
  ⟨fun cfg s e o h => step_returned_self cfg s e o h,
   fun _ _ _ _ => ⟨rfl, rfl⟩⟩

/-- Witness for the amended C5: a concrete non-stopped step returns the
hook itself, and `start` installs and returns identity 5. -/
theorem C5_witness :
    (∃ o, step cfgLineW sC2 (lineEv "f" 10 4 0) = some o ∧
      o.returned_self = !sC2.stopped) ∧
    (startTracer 5 true 1 none).2.1 = ⟨some 5⟩ ∧
    (startTracer 5 true 1 none).2.2 = 5 :=
  ⟨⟨_, rfl, C5_returned_hook_amended.1 cfgLineW sC2 (lineEv "f" 10 4 0) _ rfl⟩,
   C5_returned_hook_amended.2 5 true 1 none⟩

/-- Claim C6: over any successful run that starts with an empty trace
decision cache, the `should_trace` oracle is consulted exactly once per
distinct raw unit identifier — the identifiers passed to the oracle have
no duplicates, and an identifier reaches the oracle iff some call event
named it while the tracer was live. -/
theorem C6_oracle_once (cfg : Config) (evs : List Ev) (s s' : TracerState)
    (hrun : run cfg s evs = some s') (hcache : s.should_trace_cache = []) :
    (runCalls cfg s evs).Nodup ∧
    ∀ x, x ∈ runCalls cfg s evs ↔ x ∈ runFiles cfg s evs := by
  obtain ⟨h1, h2, h3⟩ := runCalls_spec cfg evs s s' hrun
  refine ⟨h1, fun x => ?_⟩
  rw [h2 x, hcache]
  simp [lookupA]

/-- Witness for C6: unit `a` entered twice and unit `b` once consult the
oracle once each. -/
theorem C6_witness :
    (runCalls cfgLineW initState evsC6).Nodup ∧
    ∀ x, x ∈ runCalls cfgLineW initState evsC6 ↔ x ∈ runFiles cfgLineW initState evsC6 :=
  C6_oracle_once cfgLineW evsC6 initState _ rfl rfl

/-- Claim C7: once the stopped flag is set, every delivered event leaves
the whole tracer state unchanged (and returns `None`); and a `stop()`
issued on a thread other than the starting one only sets the stopped
flag — the hook slot is left untouched and no warning fires. -/
theorem C7_stop_semantics :
    (∀ (cfg : Config) (s : TracerState) (e : Ev), s.stopped = true →
      step cfg s e = some ⟨s, false, []⟩) ∧
    (∀ (selfHook : Nat) (thread : Option Nat) (curThread : Nat) (warnOn : Bool)
      (s : TracerState) (sys : SysModel), thread ≠ some curThread →
      stopTracer selfHook true thread curThread warnOn s sys =
        ⟨{ s with stopped := true }, sys, false⟩) := by
  constructor
  · exact fun cfg s e h => step_stopped cfg s e h
  · intro sh th ct w s sys hne
    simp [stopTracer, hne]

/-- Witness for C7 at a stopped state and a cross-thread stop. -/
theorem C7_witness :
    step cfgLineW sStopped (lineEv "f" 10 3 0) = some ⟨sStopped, false, []⟩ ∧
    stopTracer 5 true (some 1) 2 true initState ⟨some 5⟩ =
      ⟨{ initState with stopped := true }, ⟨some 5⟩, false⟩ :=
  ⟨C7_stop_semantics.1 cfgLineW sStopped (lineEv "f" 10 3 0) rfl,
   C7_stop_semantics.2 5 (some 1) 2 true initState ⟨some 5⟩ (by decide)⟩

/-- Claim C8: the concrete scenario — a single non-recursive function
`f` with body lines 10, 11, 12 called twice: in line mode the final
record for `f` is exactly {10, 11, 12}; in arc mode it is
{(-1,10), (10,11), (11,12), (12,-10)} after the first call and unchanged
after the second identical call.  (The caller is untraced, so the
call-site line contributes nothing; the entry arc starts at the
sentinel -1.) -/
theorem C8_concrete_scenario :
    (run cfgLineW initState (evsC8 ++ evsC8)).map (fun s => lookupA "f" s.data) =
      some (some [Key.line 10, Key.line 11, Key.line 12]) ∧
    (run cfgArcW initState evsC8).map (fun s => lookupA "f" s.data) =
      some (some [Key.arc (-1) 10, Key.arc 10 11, Key.arc 11 12, Key.arc 12 (-10)]) ∧
    (run cfgArcW initState (evsC8 ++ evsC8)).map (fun s => lookupA "f" s.data) =
      (run cfgArcW initState evsC8).map (fun s => lookupA "f" s.data) := by
  exact ⟨rfl, rfl, rfl⟩

/-- Counterexample to claim C9 as stated: with a resolver configured, an
interleaving of two well-paired single-stream sequences in which stream
2 runs while stream 1 is between its call and its return corrupts the
recording — stream 1 alone records {10, 11} for unit A, but interleaved
it records only {10}, and its line 11 lands in stream 2's unit B,
because line events never re-derive the per-stream context. -/
theorem C9_counterexample :
    (run cfgCoW initState evs9all).map (fun s => lookupA "A" s.data) =
      some (some [Key.line 10]) ∧
    (run cfgCoW initState evs9one).map (fun s => lookupA "A" s.data) =
      some (some [Key.line 10, Key.line 11]) ∧
    (run cfgCoW initState evs9all).map (fun s => lookupA "B" s.data) =
      some (some [Key.line 20, Key.line 11]) := by
  exact ⟨rfl, rfl, rfl⟩

/-- Claim C9 as amended: with a stream resolver configured, isolation
holds when the two streams trace distinct units and interleave only at
complete call-tree boundaries (each maximal same-stream segment is a
balanced call/lines/return tree): each unit's recorded lines in the
interleaved run equal exactly those of the stream's solo run. -/
theorem C9_whole_tree_isolation (cfg : Config) (F1 F2 : String) (fl1 fl2 : Int)
    (sid1 sid2 : Nat) (l : List (Bool × CBody))
    (harcs : cfg.arcs = false) (hcoro : cfg.coroutine = true)
    (hor1 : ∀ fr, cfg.should_trace F1 fr = dispSimple F1)
    (hor2 : ∀ fr, cfg.should_trace F2 fr = dispSimple F2)
    (hne : F1 ≠ F2) (hsid : sid1 ≠ sid2)
    (hlines : ∀ p ∈ l, ∀ n ∈ bodyLines p.2, n ≠ -1) :
    ∃ sAll s1 s2,
      run cfg initState (serTops F1 F2 fl1 fl2 sid1 sid2 l) = some sAll ∧
      run cfg initState (serTops F1 F2 fl1 fl2 sid1 sid2
        (l.filter (fun p => p.1 == true))) = some s1 ∧
      run cfg initState (serTops F1 F2 fl1 fl2 sid1 sid2
        (l.filter (fun p => p.1 == false))) = some s2 ∧
      lookupA F1 sAll.data = lookupA F1 s1.data ∧
      lookupA F2 sAll.data = lookupA F2 s2.data := by
  have hInv : C9Inv cfg F1 F2 initState := ⟨rfl, rfl, Or.inl rfl, Or.inl rfl⟩
  obtain ⟨sA, s1, h1, h2, h3⟩ := interleave_side cfg F1 F2 fl1 fl2 sid1 sid2 harcs
    hor1 hor2 hne true l initState initState hInv hInv hlines rfl
  obtain ⟨sA2, s2, h4, h5, h6⟩ := interleave_side cfg F1 F2 fl1 fl2 sid1 sid2 harcs
    hor1 hor2 hne false l initState initState hInv hInv hlines rfl
  rw [h1] at h4
  obtain rfl : sA = sA2 := Option.some.inj h4
  exact ⟨sA, s1, s2, h1, h2, h5, h3, h6⟩

/-- Witness for the amended C9 at a concrete whole-tree interleaving. -/
theorem C9_witness :
    ∃ sAll s1 s2,
      run cfgCoW initState (serTops "A" "B" 10 20 1 2
        [(true, bC8), (false, bW), (true, bW)]) = some sAll ∧
      run cfgCoW initState (serTops "A" "B" 10 20 1 2
        ([(true, bC8), (false, bW), (true, bW)].filter (fun p => p.1 == true))) = some s1 ∧
      run cfgCoW initState (serTops "A" "B" 10 20 1 2
        ([(true, bC8), (false, bW), (true, bW)].filter (fun p => p.1 == false))) = some s2 ∧
      lookupA "A" sAll.data = lookupA "A" s1.data ∧
      lookupA "B" sAll.data = lookupA "B" s2.data :=
  C9_whole_tree_isolation cfgCoW "A" "B" 10 20 1 2 [(true, bC8), (false, bW), (true, bW)]
    rfl rfl (fun _ => rfl) (fun _ => rfl) (by decide) (by decide) (by decide)

/-- Claim C10: `get_stats` returns `None` in every reachable recorder
state — the model returns `none` for every state whatsoever. -/
theorem C10_get_stats_none : ∀ s : TracerState, get_stats s = none := fun _ => rfl

end PyTracerModel
